import Mathlib

/-!
Verification of the routine tracking-card PDF generator
(apps/api/scripts/generate-card-pdf.py).

The script is embedded shallowly: the reportlab canvas is modelled as an
append-only list of drawing operations (`Op`), the mutable `current_y`
cursor is threaded explicitly, and Python `KeyError` exceptions are
modelled with an error component that carries the operations already
emitted when the exception is raised.  All coordinates are rationals
(every constant in the script is an exact multiple of a point).
Only two colors ever occur in the script (black and Color(0.7,0.7,0.7)),
so colors are modelled by a two-element type.
-/

/-- Colors used by the script: black and the gray accent Color(0.7, 0.7, 0.7). -/
inductive PdfColor where
  | black
  | gray
deriving DecidableEq, Repr

/-- Mirrors the module-level constant GRAY = Color(0.7, 0.7, 0.7). -/
def GRAY : PdfColor := PdfColor.gray

/-- Drawing-surface operations: the reportlab canvas calls issued by the script. -/
inductive Op where
  | setFillColor (c : PdfColor)
  | setStrokeColor (c : PdfColor)
  | setFont (name : String) (size : ℚ)
  | setLineWidth (w : ℚ)
  | setDash (a b : ℚ)
  | setDashReset
  | circle (x y r : ℚ) (fill stroke : Bool)
  | rect (x y w h : ℚ) (fill stroke : Bool)
  | line (x1 y1 x2 y2 : ℚ)
  | drawString (x y : ℚ) (s : String)
  | drawRightString (x y : ℚ) (s : String)
  | drawCentredString (x y : ℚ) (s : String)
  | showPage
deriving DecidableEq, Repr

/-- Python KeyError (the only exception the embedded code can raise). -/
inductive PyErr where
  | keyError
deriving DecidableEq, Repr

-- Constants (top of the script).  letter = (612, 792); inch = 72.
def PAGE_WIDTH : ℚ := 612
def PAGE_HEIGHT : ℚ := 792
def MARGIN : ℚ := 18
def MARKER_RADIUS : ℚ := 4
def CHECKBOX_SIZE : ℚ := 18
def NUMBER_BOX_WIDTH : ℚ := 72
def NUMBER_BOX_HEIGHT : ℚ := 24
def SCALE_BOX_SIZE : ℚ := 24
def LINE_HEIGHT : ℚ := 18

/-- One entry of the LAYOUTS table. -/
structure LayoutConfig where
  cols : Nat
  rows : Nat
  width : ℚ
  height : ℚ
deriving DecidableEq, Repr

/-- The LAYOUTS dict; indexing a missing key raises KeyError, hence Option. -/
def LAYOUTS (name : String) : Option LayoutConfig :=
  if name = "quarter" then some ⟨2, 2, 306, 396⟩
  else if name = "half" then some ⟨1, 2, 612, 396⟩
  else if name = "full" then some ⟨1, 1, 612, 792⟩
  else none

/-- def suggest_layout(item_count): determine layout based on item count. -/
def suggest_layout (item_count : Int) : String :=
  if item_count ≤ 8 then "quarter"
  else if item_count ≤ 15 then "half"
  else "full"

/-- An item dict.  Fields are optional because Python dict access is partial:
the script reads item[ "type" ] and item[ "name" ] (KeyError when missing),
item.get("order", 0), item.get("unit") and item.get("hasNotes"). -/
structure Item where
  type : Option String
  name : Option String
  order : Option Int
  unit : Option String
  hasNotes : Option Bool
deriving DecidableEq, Repr

/-- A routine dict as built in main: name, items, version (version optional
because generate_pdf reads it with routine.get("version", 1)). -/
structure Routine where
  name : String
  items : List Item
  version : Option Int
deriving DecidableEq, Repr

/-- Sort key used in _draw_items: lambda x: x.get("order", 0). -/
def itemOrder (it : Item) : Int := it.order.getD 0

/-- Stable insertion of an item after every element whose key is ≤ its key.
This is the insertion step of a stable ascending sort, matching the
semantics of Python sorted with the given key. -/
def insertByOrder (a : Item) : List Item → List Item
  | [] => [a]
  | b :: l => if itemOrder b ≤ itemOrder a then b :: insertByOrder a l else a :: b :: l

/-- Embedding of sorted(items, key=lambda x: x.get("order", 0)): a stable
ascending sort by the order key. -/
def sortItems (l : List Item) : List Item :=
  l.foldl (fun acc a => insertByOrder a acc) []

/-- C1.  For every non-negative item count n, suggest_layout returns
"quarter" iff n ≤ 8, "half" iff 9 ≤ n ≤ 15, and "full" iff n > 15; it is a
total function (defined for every integer) with no error case. -/
theorem c1_suggest_layout_thresholds (n : Int) (h : 0 ≤ n) :
    (suggest_layout n = "quarter" ↔ n ≤ 8) ∧
    (suggest_layout n = "half" ↔ 9 ≤ n ∧ n ≤ 15) ∧
    (suggest_layout n = "full" ↔ 15 < n) := by
  unfold suggest_layout
  split
  · refine ⟨by simp_all, ?_, ?_⟩ <;> constructor <;> intro hc <;> simp_all <;> omega
  · split
    · refine ⟨?_, ?_, ?_⟩ <;> constructor <;> intro hc <;> simp_all <;> omega
    · refine ⟨?_, ?_, ?_⟩ <;> constructor <;> intro hc <;> simp_all <;> omega

/-- Witness for C1 at n = 10. -/
theorem c1_suggest_layout_thresholds_witness :
    (0 : Int) ≤ 10 ∧
    ((suggest_layout 10 = "quarter" ↔ (10 : Int) ≤ 8) ∧
     (suggest_layout 10 = "half" ↔ (9 : Int) ≤ 10 ∧ (10 : Int) ≤ 15) ∧
     (suggest_layout 10 = "full" ↔ (15 : Int) < 10)) :=
  ⟨by decide, c1_suggest_layout_thresholds 10 (by decide)⟩

/-- CardRenderer._draw_checkbox_item.  Emits its canvas calls in source
order; item[ "name" ] raises KeyError after the box has been drawn. -/
def drawCheckboxItem (x : ℚ) (item : Item) (cy : ℚ) : List Op × ℚ × Option PyErr :=
  let ops := [Op.setStrokeColor PdfColor.black, Op.setLineWidth (3/2),
              Op.rect x (cy - CHECKBOX_SIZE + 4) CHECKBOX_SIZE CHECKBOX_SIZE false true,
              Op.setFont "Helvetica" 11, Op.setFillColor PdfColor.black]
  match item.name with
  | none => (ops, cy, some PyErr.keyError)
  | some nm =>
    (ops ++ [Op.drawString (x + CHECKBOX_SIZE + 8) (cy - 8) nm],
     cy - (CHECKBOX_SIZE + 8), none)

/-- CardRenderer._draw_number_item.  The unit label branch mirrors
the Python truthiness test if unit: (None and the empty string are falsy). -/
def drawNumberItem (x : ℚ) (item : Item) (cy : ℚ) : List Op × ℚ × Option PyErr :=
  let ops := [Op.setFont "Helvetica" 11, Op.setFillColor PdfColor.black]
  match item.name with
  | none => (ops, cy, some PyErr.keyError)
  | some nm =>
    let ops := ops ++ [Op.drawString x (cy - 8) nm]
    let cy := cy - 18
    let ops := ops ++ [Op.setStrokeColor PdfColor.black, Op.setLineWidth 1,
                       Op.rect x (cy - NUMBER_BOX_HEIGHT) NUMBER_BOX_WIDTH NUMBER_BOX_HEIGHT false true]
    let ops := ops ++
      (match item.unit with
       | some u =>
         if u = "" then [] else
           [Op.setFont "Helvetica" 9, Op.setFillColor GRAY,
            Op.drawString (x + NUMBER_BOX_WIDTH + 6) (cy - NUMBER_BOX_HEIGHT + 6) u,
            Op.setFillColor PdfColor.black]
       | none => [])
    (ops, cy - (NUMBER_BOX_HEIGHT + 12), none)

/-- CardRenderer._draw_scale_item.  The loop over range(5) does not touch
current_y, so it contributes operations only. -/
def drawScaleItem (x content_width : ℚ) (item : Item) (cy : ℚ) : List Op × ℚ × Option PyErr :=
  let ops := [Op.setFont "Helvetica" 11, Op.setFillColor PdfColor.black]
  match item.name with
  | none => (ops, cy, some PyErr.keyError)
  | some nm =>
    let ops := ops ++ [Op.drawString x (cy - 8) nm]
    let cy := cy - 22
    let ops := ops ++ [Op.setStrokeColor PdfColor.black, Op.setLineWidth 1,
                       Op.setFont "Helvetica" 9]
    let ops := (List.range 5).foldl (fun acc i =>
      let box_x := x + ((i : ℚ) * (SCALE_BOX_SIZE + 6))
      acc ++ [Op.rect box_x (cy - SCALE_BOX_SIZE) SCALE_BOX_SIZE SCALE_BOX_SIZE false true,
              Op.setFillColor GRAY,
              Op.drawCentredString (box_x + SCALE_BOX_SIZE / 2) (cy + 3) (toString (i + 1)),
              Op.setFillColor PdfColor.black]) ops
    let cy := cy - (SCALE_BOX_SIZE + 8)
    if item.hasNotes.getD false then
      (ops ++ [Op.setFont "Helvetica" 9, Op.setFillColor GRAY,
               Op.drawString x (cy - 8) "Notes:", Op.setFillColor PdfColor.black,
               Op.setStrokeColor GRAY, Op.setLineWidth (1/2),
               Op.line (x + 35) (cy - 10) (x + content_width) (cy - 10),
               Op.setStrokeColor PdfColor.black],
       cy - 16, none)
    else
      (ops, cy, none)

/-- CardRenderer._draw_text_item.  The two answer lines advance current_y
by LINE_HEIGHT each. -/
def drawTextItem (x content_width : ℚ) (item : Item) (cy : ℚ) : List Op × ℚ × Option PyErr :=
  let ops := [Op.setFont "Helvetica" 11, Op.setFillColor PdfColor.black]
  match item.name with
  | none => (ops, cy, some PyErr.keyError)
  | some nm =>
    let ops := ops ++ [Op.drawString x (cy - 8) nm]
    let cy := cy - 18
    let ops := ops ++ [Op.setStrokeColor GRAY, Op.setLineWidth (1/2)]
    let p := (List.range 2).foldl (fun (acc : List Op × ℚ) _ =>
      (acc.1 ++ [Op.line x (acc.2 - 4) (x + content_width) (acc.2 - 4)], acc.2 - LINE_HEIGHT))
      (ops, cy)
    (p.1 ++ [Op.setStrokeColor PdfColor.black], p.2, none)

/-- The type dispatch inside the _draw_items loop: item[ "type" ] raises
KeyError when missing, and a type matching none of the four elif branches
draws nothing. -/
def drawItemDispatch (content_x content_width : ℚ) (item : Item) (cy : ℚ) :
    List Op × ℚ × Option PyErr :=
  match item.type with
  | none => ([], cy, some PyErr.keyError)
  | some item_type =>
    if item_type = "checkbox" then drawCheckboxItem content_x item cy
    else if item_type = "number" then drawNumberItem content_x item cy
    else if item_type = "scale" then drawScaleItem content_x content_width item cy
    else if item_type = "text" then drawTextItem content_x content_width item cy
    else ([], cy, none)

/-- The for-loop of _draw_items: before each item the cursor is compared
against min_y and the loop breaks when it has fallen below. -/
def drawItemsGo (min_y content_x content_width : ℚ) : List Item → ℚ → List Op × ℚ × Option PyErr
  | [], cy => ([], cy, none)
  | item :: rest, cy =>
    if cy < min_y then ([], cy, none)
    else
      match drawItemDispatch content_x content_width item cy with
      | (ops, cy2, some e) => (ops, cy2, some e)
      | (ops, cy2, none) =>
        let r := drawItemsGo min_y content_x content_width rest cy2
        (ops ++ r.1, r.2.1, r.2.2)

/-- The CardRenderer object: position, size, routine and version. -/
structure CardRenderer where
  x : ℚ
  y : ℚ
  width : ℚ
  height : ℚ
  routine : Routine
  version : Int
deriving DecidableEq, Repr

/-- CardRenderer._draw_alignment_markers: four filled corner dots. -/
def CardRenderer.draw_alignment_markers (r : CardRenderer) : List Op :=
  [Op.setFillColor PdfColor.black,
   Op.circle (r.x + MARGIN) (r.y + r.height - MARGIN) MARKER_RADIUS true false,
   Op.circle (r.x + r.width - MARGIN) (r.y + r.height - MARGIN) MARKER_RADIUS true false,
   Op.circle (r.x + MARGIN) (r.y + MARGIN) MARKER_RADIUS true false,
   Op.circle (r.x + r.width - MARGIN) (r.y + MARGIN) MARKER_RADIUS true false]

/-- CardRenderer._draw_header: name, date field, gray separator line. -/
def CardRenderer.draw_header (r : CardRenderer) (cy : ℚ) : List Op × ℚ :=
  let content_x := r.x + MARGIN + MARKER_RADIUS * 2
  let cy := cy - 14
  let ops := [Op.setFont "Helvetica-Bold" 14, Op.setFillColor PdfColor.black,
              Op.drawString content_x cy r.routine.name,
              Op.setFont "Helvetica" 10,
              Op.drawString (r.x + r.width - MARGIN - 80) (cy + 2) "___/___/___"]
  let cy := cy - 10
  let ops := ops ++ [Op.setStrokeColor GRAY, Op.setLineWidth (1/2),
                     Op.line content_x cy (r.x + r.width - MARGIN - MARKER_RADIUS * 2) cy,
                     Op.setStrokeColor PdfColor.black]
  (ops, cy - 15)

/-- CardRenderer._draw_items: sort by order key, then loop with the
overflow break.  min_y reserves MARGIN + 20 points above the card bottom. -/
def CardRenderer.draw_items (r : CardRenderer) (cy : ℚ) : List Op × ℚ × Option PyErr :=
  let content_x := r.x + MARGIN + MARKER_RADIUS * 2
  let content_width := r.width - (2 * MARGIN) - (MARKER_RADIUS * 4)
  let min_y := r.y + MARGIN + 20
  drawItemsGo min_y content_x content_width (sortItems r.routine.items) cy

/-- CardRenderer._draw_version: gray right-aligned version stamp. -/
def CardRenderer.draw_version (r : CardRenderer) : List Op :=
  [Op.setFont "Helvetica" 8, Op.setFillColor GRAY,
   Op.drawRightString (r.x + r.width - MARGIN - MARKER_RADIUS * 2) (r.y + MARGIN + MARKER_RADIUS)
     ("v" ++ toString r.version),
   Op.setFillColor PdfColor.black]

/-- CardRenderer.draw: markers, header, items, version stamp; an exception
raised while drawing items aborts the card with the earlier operations
already emitted. -/
def CardRenderer.draw (r : CardRenderer) : List Op × Option PyErr :=
  let cy0 := r.y + r.height - MARGIN
  let mOps := r.draw_alignment_markers
  let h := r.draw_header cy0
  let itms := r.draw_items h.2
  match itms.2.2 with
  | some e => (mOps ++ h.1 ++ itms.1, some e)
  | none => (mOps ++ h.1 ++ itms.1 ++ r.draw_version, none)

/-- def draw_cut_guides(c, layout_config): dashed guides at every internal
column and row boundary, spanning the full physical page. -/
def draw_cut_guides (layout_config : LayoutConfig) : List Op :=
  [Op.setStrokeColor GRAY, Op.setLineWidth (1/2), Op.setDash 6 3]
  ++ (List.range' 1 (layout_config.cols - 1)).map (fun col : Nat =>
       Op.line ((col : ℚ) * layout_config.width) 0
         ((col : ℚ) * layout_config.width) PAGE_HEIGHT)
  ++ (List.range' 1 (layout_config.rows - 1)).map (fun row : Nat =>
       Op.line 0 (PAGE_HEIGHT - (row : ℚ) * layout_config.height)
         PAGE_WIDTH (PAGE_HEIGHT - (row : ℚ) * layout_config.height))
  ++ [Op.setDashReset]

/-- Summary dict returned by generate_pdf when an output path is given. -/
structure PdfSummary where
  layout : String
  cards_per_page : Nat
  pages_generated : Nat
  cards_generated : Nat
deriving DecidableEq, Repr

/-- Return value of generate_pdf: raw document bytes (identified with the
operation stream they encode) or the summary dict. -/
inductive PdfOutput where
  | bytes (ops : List Op)
  | summary (s : PdfSummary)
deriving DecidableEq, Repr

/-- The inner column loop of generate_pdf.  The break fires when
card_index >= quantity; a card that raises leaves card_index unchanged. -/
def cardCellLoop (layout_config : LayoutConfig) (routine : Routine) (quantity : Nat) (row : Nat) :
    List Nat → Nat → List Op × Option PyErr × Nat
  | [], card_index => ([], none, card_index)
  | col :: cols, card_index =>
    if card_index ≥ quantity then ([], none, card_index)
    else
      let x := (col : ℚ) * layout_config.width
      let y := PAGE_HEIGHT - ((row : ℚ) + 1) * layout_config.height
      let rend : CardRenderer :=
        ⟨x, y, layout_config.width, layout_config.height, routine, routine.version.getD 1⟩
      match rend.draw with
      | (ops, some e) => (ops, some e, card_index)
      | (ops, none) =>
        let rest := cardCellLoop layout_config routine quantity row cols (card_index + 1)
        (ops ++ rest.1, rest.2.1, rest.2.2)

/-- The outer row loop of generate_pdf (the column break only exits one
row; the next row re-checks the counter). -/
def cardRowLoop (layout_config : LayoutConfig) (routine : Routine) (quantity : Nat) :
    List Nat → Nat → List Op × Option PyErr × Nat
  | [], card_index => ([], none, card_index)
  | row :: rows, card_index =>
    match cardCellLoop layout_config routine quantity row (List.range layout_config.cols) card_index with
    | (ops, some e, idx) => (ops, some e, idx)
    | (ops, none, idx) =>
      let rest := cardRowLoop layout_config routine quantity rows idx
      (ops ++ rest.1, rest.2.1, rest.2.2)

/-- The page loop of generate_pdf: showPage for every page after the
first, then cut guides, then the card grid. -/
def pdfPageLoop (layout_config : LayoutConfig) (routine : Routine) (quantity : Nat) :
    List Nat → Nat → List Op × Option PyErr × Nat
  | [], card_index => ([], none, card_index)
  | page :: pages, card_index =>
    let pre := (if 0 < page then [Op.showPage] else []) ++ draw_cut_guides layout_config
    match cardRowLoop layout_config routine quantity (List.range layout_config.rows) card_index with
    | (ops, some e, idx) => (pre ++ ops, some e, idx)
    | (ops, none, idx) =>
      let rest := pdfPageLoop layout_config routine quantity pages idx
      (pre ++ ops ++ rest.1, rest.2.1, rest.2.2)

/-- def generate_pdf(routine, layout, quantity, output_path=None).
Returns none when LAYOUTS[layout] raises KeyError; otherwise the emitted
operation stream, the propagated exception if any, and the Python return
value (bytes without an output path, the summary dict with one). -/
def generate_pdf (routine : Routine) (layout : String) (quantity : Nat)
    (output_path : Option String) : Option (List Op × Option PyErr × Option PdfOutput) :=
  match LAYOUTS layout with
  | none => none
  | some layout_config =>
    let cards_per_page := layout_config.cols * layout_config.rows
    let total_pages := (quantity + cards_per_page - 1) / cards_per_page
    let run := pdfPageLoop layout_config routine quantity (List.range total_pages) 0
    match run.2.1 with
    | some e => some (run.1, some e, none)
    | none =>
      some (run.1, none, some (match output_path with
        | none => PdfOutput.bytes run.1
        | some _ => PdfOutput.summary ⟨layout, cards_per_page, total_pages, quantity⟩))

/-- The decoded JSON input of main: every field access in main is via
data[ "name" ] and data[ "items" ] (KeyError when missing) or .get with a
default. -/
structure InputData where
  name : Option String
  items : Option (List Item)
  version : Option Int
  quantity : Option Nat
deriving DecidableEq, Repr

/-- def main(): read fields, pick the layout (auto uses suggest_layout on
len(items)), build the routine dict, call generate_pdf with the output
path.  A KeyError on name or items happens before any drawing call. -/
def mainRun (data : InputData) (layout_arg : String) (output : String) :
    List Op × Option PyErr × Option PdfOutput :=
  match data.name with
  | none => ([], some PyErr.keyError, none)
  | some routine_name =>
    match data.items with
    | none => ([], some PyErr.keyError, none)
    | some items =>
      let version := data.version.getD 1
      let quantity := data.quantity.getD 1
      let layout := if layout_arg = "auto" then suggest_layout (items.length : Int) else layout_arg
      let routine : Routine := ⟨routine_name, items, some version⟩
      match generate_pdf routine layout quantity (some output) with
      | none => ([], some PyErr.keyError, none)
      | some res => res

/-- The four item kinds the elif chain of _draw_items recognizes. -/
def isRecognizedType (t : String) : Bool :=
  t = "checkbox" || t = "number" || t = "scale" || t = "text"

/-- An item whose type is present and recognized. -/
def Item.recognized (it : Item) : Bool :=
  match it.type with
  | some t => isRecognizedType t
  | none => false

/-- An item the _draw_items loop can process without raising: the type key
is present, and when it is one of the four recognized kinds the name key
is present as well (an unrecognized kind never reads the name). -/
def itemOk (it : Item) : Bool :=
  match it.type with
  | none => false
  | some t => !isRecognizedType t || it.name.isSome

/-- A routine every item of which renders without raising. -/
def routineOk (r : Routine) : Bool := r.items.all itemOk

/-- Total decrement applied to current_y by one item (0 for an
unrecognized kind, which draws nothing). -/
def itemAdvance (it : Item) : ℚ :=
  match it.type with
  | none => 0
  | some t =>
    if t = "checkbox" then CHECKBOX_SIZE + 8
    else if t = "number" then 18 + (NUMBER_BOX_HEIGHT + 12)
    else if t = "scale" then 22 + (SCALE_BOX_SIZE + 8) + (if it.hasNotes.getD false then 16 else 0)
    else if t = "text" then 18 + 2 * LINE_HEIGHT
    else 0

/-- Sum of the vertical advances of a list of items. -/
def cumAdvance (l : List Item) : ℚ := (l.map itemAdvance).sum

/-- The prefix of the (sorted) item list that the _draw_items loop
actually processes before the overflow break fires: an item is processed
exactly when the cursor has not yet fallen below min_y. -/
def keptItems (min_y : ℚ) : List Item → ℚ → List Item
  | [], _ => []
  | it :: rest, cy =>
    if cy < min_y then [] else it :: keptItems min_y rest (cy - itemAdvance it)

/-- Recognizes the setFont("Helvetica", 11) call that every recognized
item (and nothing else in the script) issues exactly once. -/
def isItemFontOp : Op → Bool
  | Op.setFont n s => n == "Helvetica" && s == 11
  | _ => false

/-- Recognizes drawRightString, issued only by the version stamp. -/
def isDrawRightStringOp : Op → Bool
  | Op.drawRightString _ _ _ => true
  | _ => false

/-- Recognizes the showPage page break. -/
def isShowPageOp : Op → Bool
  | Op.showPage => true
  | _ => false

/-- Fill color in effect after replaying a list of operations on a canvas
whose fill color was c. -/
def fillAfter (c : PdfColor) (ops : List Op) : PdfColor :=
  ops.foldl (fun acc o => match o with | Op.setFillColor c2 => c2 | _ => acc) c

/-- Stroke color in effect after replaying a list of operations on a
canvas whose stroke color was c. -/
def strokeAfter (c : PdfColor) (ops : List Op) : PdfColor :=
  ops.foldl (fun acc o => match o with | Op.setStrokeColor c2 => c2 | _ => acc) c

/-- Endpoints of the line operations contained in a list of operations. -/
def lineSegments (ops : List Op) : List (ℚ × ℚ × ℚ × ℚ) :=
  ops.filterMap fun o => match o with
    | Op.line a b c d => some (a, b, c, d)
    | _ => none

theorem range_two : List.range 2 = [0, 1] := rfl

theorem range_five : List.range 5 = [0, 1, 2, 3, 4] := rfl

/-- Central per-item lemma: an ok item is dispatched without raising, it
advances the cursor by exactly itemAdvance, it emits no drawRightString
and no showPage, a recognized item emits the setFont("Helvetica", 11)
call exactly once (an unrecognized one emits nothing), and after a
recognized item both canvas colors are black no matter what they were
before (an unrecognized item leaves them untouched). -/
theorem drawItemDispatch_spec (content_x content_width cy : ℚ) (f s : PdfColor)
    (it : Item) (h : itemOk it = true) :
    (drawItemDispatch content_x content_width it cy).2.2 = none ∧
    (drawItemDispatch content_x content_width it cy).2.1 = cy - itemAdvance it ∧
    ((drawItemDispatch content_x content_width it cy).1).countP isDrawRightStringOp = 0 ∧
    ((drawItemDispatch content_x content_width it cy).1).countP isShowPageOp = 0 ∧
    ((drawItemDispatch content_x content_width it cy).1).countP isItemFontOp
      = (if it.recognized then 1 else 0) ∧
    fillAfter f ((drawItemDispatch content_x content_width it cy).1)
      = (if it.recognized then PdfColor.black else f) ∧
    strokeAfter s ((drawItemDispatch content_x content_width it cy).1)
      = (if it.recognized then PdfColor.black else s) := by
  obtain ⟨t, n, o, u, hb⟩ := it
  cases t with
  | none => simp [itemOk] at h
  | some tv =>
    by_cases h1 : tv = "checkbox"
    · subst h1
      cases n with
      | none => simp [itemOk, isRecognizedType] at h
      | some nm =>
        refine ⟨?_, ?_, ?_, ?_, ?_, ?_, ?_⟩ <;>
          simp [drawItemDispatch, drawCheckboxItem, itemAdvance, Item.recognized,
                isRecognizedType, fillAfter, strokeAfter, isDrawRightStringOp,
                isShowPageOp, isItemFontOp, CHECKBOX_SIZE]
    · by_cases h2 : tv = "number"
      · subst h2
        cases n with
        | none => simp [itemOk, isRecognizedType] at h
        | some nm =>
          cases u with
          | none =>
            refine ⟨?_, ?_, ?_, ?_, ?_, ?_, ?_⟩ <;>
              simp [drawItemDispatch, drawNumberItem, itemAdvance, Item.recognized,
                    isRecognizedType, fillAfter, strokeAfter, isDrawRightStringOp,
                    isShowPageOp, isItemFontOp, NUMBER_BOX_HEIGHT] <;> ring
          | some uu =>
            by_cases hu : uu = ""
            · subst hu
              refine ⟨?_, ?_, ?_, ?_, ?_, ?_, ?_⟩ <;>
                simp [drawItemDispatch, drawNumberItem, itemAdvance, Item.recognized,
                      isRecognizedType, fillAfter, strokeAfter, isDrawRightStringOp,
                      isShowPageOp, isItemFontOp, NUMBER_BOX_HEIGHT] <;> ring
            · refine ⟨?_, ?_, ?_, ?_, ?_, ?_, ?_⟩ <;>
                simp [drawItemDispatch, drawNumberItem, itemAdvance, Item.recognized,
                      isRecognizedType, fillAfter, strokeAfter, isDrawRightStringOp,
                      isShowPageOp, isItemFontOp, NUMBER_BOX_HEIGHT, GRAY, hu] <;> ring
      · by_cases h3 : tv = "scale"
        · subst h3
          cases n with
          | none => simp [itemOk, isRecognizedType] at h
          | some nm =>
            cases hnb : hb.getD false <;>
              refine ⟨?_, ?_, ?_, ?_, ?_, ?_, ?_⟩ <;>
                simp [drawItemDispatch, drawScaleItem, itemAdvance, Item.recognized,
                      isRecognizedType, fillAfter, strokeAfter, isDrawRightStringOp,
                      isShowPageOp, isItemFontOp, SCALE_BOX_SIZE, GRAY, hnb,
                      range_five] <;> ring
        · by_cases h4 : tv = "text"
          · subst h4
            cases n with
            | none => simp [itemOk, isRecognizedType] at h
            | some nm =>
              refine ⟨?_, ?_, ?_, ?_, ?_, ?_, ?_⟩ <;>
                simp [drawItemDispatch, drawTextItem, itemAdvance, Item.recognized,
                      isRecognizedType, fillAfter, strokeAfter, isDrawRightStringOp,
                      isShowPageOp, isItemFontOp, LINE_HEIGHT, GRAY, range_two] <;> ring
          · refine ⟨?_, ?_, ?_, ?_, ?_, ?_, ?_⟩ <;>
              simp [drawItemDispatch, itemAdvance, Item.recognized, isRecognizedType,
                    fillAfter, strokeAfter, h1, h2, h3, h4]

/-- Every per-item vertical advance is nonnegative. -/
theorem itemAdvance_nonneg (it : Item) : 0 ≤ itemAdvance it := by
  unfold itemAdvance
  cases it.type with
  | none => norm_num
  | some tv =>
    dsimp only
    split_ifs <;>
      norm_num [CHECKBOX_SIZE, NUMBER_BOX_HEIGHT, SCALE_BOX_SIZE, LINE_HEIGHT]

/-- Loop-level lemma for _draw_items: with every item ok the loop never
raises, the cursor drops by the cumulative advance of the processed
prefix (keptItems), the loop emits no drawRightString and no showPage,
and it emits one setFont("Helvetica", 11) per processed recognized item. -/
theorem drawItemsGo_spec (min_y content_x content_width : ℚ) :
    ∀ (l : List Item) (cy : ℚ), (∀ it ∈ l, itemOk it = true) →
    (drawItemsGo min_y content_x content_width l cy).2.2 = none ∧
    (drawItemsGo min_y content_x content_width l cy).2.1
      = cy - cumAdvance (keptItems min_y l cy) ∧
    ((drawItemsGo min_y content_x content_width l cy).1).countP isDrawRightStringOp = 0 ∧
    ((drawItemsGo min_y content_x content_width l cy).1).countP isShowPageOp = 0 ∧
    ((drawItemsGo min_y content_x content_width l cy).1).countP isItemFontOp
      = (keptItems min_y l cy).countP Item.recognized := by
  intro l
  induction l with
  | nil => intro cy _; simp [drawItemsGo, keptItems, cumAdvance]
  | cons it rest ih =>
    intro cy hok
    have hit : itemOk it = true := hok it (by simp)
    have hrest : ∀ x ∈ rest, itemOk x = true := fun x hx => hok x (by simp [hx])
    by_cases hcy : cy < min_y
    · simp [drawItemsGo, hcy, keptItems, cumAdvance]
    · obtain ⟨e1, e2, e3, e4, e5, _, _⟩ :=
        drawItemDispatch_spec content_x content_width cy PdfColor.black PdfColor.black it hit
      rcases hcall : drawItemDispatch content_x content_width it cy with ⟨ops, cy2, err⟩
      rw [hcall] at e1 e2 e3 e4 e5
      simp only at e1 e2 e3 e4 e5
      subst e1
      subst e2
      obtain ⟨g1, g2, g3, g4, g5⟩ := ih (cy - itemAdvance it) hrest
      refine ⟨?_, ?_, ?_, ?_, ?_⟩
      · simp [drawItemsGo, hcy, hcall, g1]
      · simp [drawItemsGo, hcy, hcall, g2, keptItems, cumAdvance, sub_sub]
      · simp [drawItemsGo, hcy, hcall, List.countP_append, e3, g3]
      · simp [drawItemsGo, hcy, hcall, List.countP_append, e4, g4]
      · simp [drawItemsGo, hcy, hcall, List.countP_append, e5, g5, keptItems,
              List.countP_cons]
        omega

/-- Ascending comparison on the sort key. -/
def orderLe (x y : Item) : Prop := itemOrder x ≤ itemOrder y

theorem mem_insertByOrder {x a : Item} :
    ∀ {l : List Item}, x ∈ insertByOrder a l ↔ x = a ∨ x ∈ l := by
  intro l
  induction l with
  | nil => simp [insertByOrder]
  | cons b bs ih =>
    simp only [insertByOrder]
    split
    · simp only [List.mem_cons, ih]
      tauto
    · simp [List.mem_cons]

theorem insertByOrder_pairwise (a : Item) :
    ∀ l : List Item, l.Pairwise orderLe → (insertByOrder a l).Pairwise orderLe := by
  intro l
  induction l with
  | nil => intro _; simp [insertByOrder]
  | cons b bs ih =>
    intro hp
    rw [List.pairwise_cons] at hp
    obtain ⟨hb, hbs⟩ := hp
    simp only [insertByOrder]
    split
    · rename_i hle
      rw [List.pairwise_cons]
      refine ⟨?_, ih hbs⟩
      intro x hx
      rcases mem_insertByOrder.mp hx with rfl | hxl
      · exact hle
      · exact hb x hxl
    · rename_i hgt
      have hab : itemOrder a ≤ itemOrder b := le_of_lt (lt_of_not_ge hgt)
      rw [List.pairwise_cons]
      refine ⟨?_, List.pairwise_cons.mpr ⟨hb, hbs⟩⟩
      intro x hx
      rcases List.mem_cons.mp hx with rfl | hxbs
      · exact hab
      · exact le_trans hab (hb x hxbs)

/-- Insertion splits the list at the stable position: everything placed
after the inserted element has a strictly larger key. -/
theorem insertByOrder_decomp (a : Item) :
    ∀ l : List Item, l.Pairwise orderLe →
      ∃ s1 s2, l = s1 ++ s2 ∧ insertByOrder a l = s1 ++ a :: s2 ∧
        ∀ b ∈ s2, itemOrder a < itemOrder b := by
  intro l
  induction l with
  | nil => exact fun _ => ⟨[], [], rfl, rfl, by simp⟩
  | cons b bs ih =>
    intro hp
    simp only [insertByOrder]
    split
    · rename_i hle
      obtain ⟨s1, s2, he, hi, hgt⟩ := ih (List.pairwise_cons.mp hp).2
      exact ⟨b :: s1, s2, by simp [he], by simp [hi], hgt⟩
    · rename_i hgt
      refine ⟨[], b :: bs, rfl, rfl, ?_⟩
      intro x hx
      have hab : itemOrder a < itemOrder b := lt_of_not_ge hgt
      rcases List.mem_cons.mp hx with rfl | hxbs
      · exact hab
      · exact lt_of_lt_of_le hab ((List.pairwise_cons.mp hp).1 x hxbs)

theorem sortItems_pairwise (l : List Item) : (sortItems l).Pairwise orderLe := by
  suffices h : ∀ acc, acc.Pairwise orderLe →
      (l.foldl (fun acc a => insertByOrder a acc) acc).Pairwise orderLe by
    exact h [] (by simp)
  induction l with
  | nil => intro acc h; simpa using h
  | cons a as ih =>
    intro acc h
    simp only [List.foldl_cons]
    exact ih _ (insertByOrder_pairwise a acc h)

theorem filter_insertByOrder (a : Item) (k : Int) (l : List Item) (hp : l.Pairwise orderLe) :
    (insertByOrder a l).filter (fun x => itemOrder x == k)
      = l.filter (fun x => itemOrder x == k)
        ++ (if itemOrder a == k then [a] else []) := by
  obtain ⟨s1, s2, he, hi, hgt⟩ := insertByOrder_decomp a l hp
  subst he
  rw [hi]
  rw [List.filter_append, List.filter_append, List.filter_cons]
  by_cases hk : itemOrder a = k
  · have hs2 : s2.filter (fun x => itemOrder x == k) = [] := by
      rw [List.filter_eq_nil_iff]
      intro x hx
      have hx2 := hgt x hx
      simp only [beq_iff_eq]
      omega
    simp [hk, hs2]
  · simp [hk]

theorem sortItems_stable (l : List Item) (k : Int) :
    (sortItems l).filter (fun x => itemOrder x == k)
      = l.filter (fun x => itemOrder x == k) := by
  suffices h : ∀ acc, acc.Pairwise orderLe →
      (l.foldl (fun acc a => insertByOrder a acc) acc).filter (fun x => itemOrder x == k)
        = acc.filter (fun x => itemOrder x == k) ++ l.filter (fun x => itemOrder x == k) by
    simpa using h [] (by simp)
  induction l with
  | nil => intro acc h; simp
  | cons a as ih =>
    intro acc h
    simp only [List.foldl_cons]
    rw [ih _ (insertByOrder_pairwise a acc h), filter_insertByOrder a k acc h,
        List.filter_cons]
    by_cases hk : itemOrder a = k <;> simp [hk]

theorem insertByOrder_perm (a : Item) :
    ∀ l : List Item, List.Perm (insertByOrder a l) (a :: l) := by
  intro l
  induction l with
  | nil => simp [insertByOrder]
  | cons b bs ih =>
    simp only [insertByOrder]
    split
    · exact ((ih.cons b).trans (List.Perm.swap a b bs))
    · exact List.Perm.refl _

theorem sortItems_perm (l : List Item) : List.Perm (sortItems l) l := by
  suffices h : ∀ acc, List.Perm (l.foldl (fun acc a => insertByOrder a acc) acc) (acc ++ l) by
    simpa using h []
  induction l with
  | nil => intro acc; simp
  | cons a as ih =>
    intro acc
    simp only [List.foldl_cons]
    exact (ih (insertByOrder a acc)).trans
      (((insertByOrder_perm a acc).append_right as).trans List.perm_middle.symm)

/-- C3.  The renderer iterates exactly the stable ascending sort of the
input items by their order key (missing order read as 0): the processed
sequence is sorted by the key, items with equal keys keep their original
relative order (the filter at every key value is unchanged), and the
sorted sequence is a permutation of the input. -/
theorem c3_draw_items_sorted_stable (r : CardRenderer) (cy : ℚ) :
    r.draw_items cy
      = drawItemsGo (r.y + MARGIN + 20) (r.x + MARGIN + MARKER_RADIUS * 2)
          (r.width - (2 * MARGIN) - (MARKER_RADIUS * 4)) (sortItems r.routine.items) cy ∧
    (∀ it : Item, it.order = none → itemOrder it = 0) ∧
    (sortItems r.routine.items).Pairwise orderLe ∧
    (∀ k : Int, (sortItems r.routine.items).filter (fun x => itemOrder x == k)
        = r.routine.items.filter (fun x => itemOrder x == k)) ∧
    List.Perm (sortItems r.routine.items) r.routine.items := by
  refine ⟨rfl, ?_, sortItems_pairwise _, fun k => sortItems_stable _ k, sortItems_perm _⟩
  intro it ho
  simp [itemOrder, ho]

theorem keptItems_subset (min_y : ℚ) :
    ∀ (l : List Item) (cy : ℚ) (x : Item), x ∈ keptItems min_y l cy → x ∈ l := by
  intro l
  induction l with
  | nil => intro cy x hx; simp [keptItems] at hx
  | cons it rest ih =>
    intro cy x hx
    simp only [keptItems] at hx
    split at hx
    · simp at hx
    · rcases List.mem_cons.mp hx with rfl | h2
      · exact List.mem_cons_self _ _
      · exact List.mem_cons_of_mem _ (ih _ x h2)

/-- When the cumulative advance of every item but the last already
exceeds the room between the cursor and the floor, the break fires before
the last item: the processed prefix is a proper prefix. -/
theorem keptItems_length_lt (min_y : ℚ) :
    ∀ (l : List Item) (cy : ℚ), 0 ≤ cy - min_y →
      cy - min_y < cumAdvance l.dropLast →
      (keptItems min_y l cy).length < l.length := by
  intro l
  induction l with
  | nil =>
    intro cy h0 hover
    simp [cumAdvance] at hover
    linarith
  | cons it rest ih =>
    intro cy h0 hover
    have hncy : ¬ cy < min_y := by linarith
    have hadv := itemAdvance_nonneg it
    cases rest with
    | nil =>
      exfalso
      simp [cumAdvance] at hover
      linarith
    | cons r2 rs =>
      by_cases h2 : cy - itemAdvance it < min_y
      · simp [keptItems, hncy, h2]
      · have h0b : 0 ≤ (cy - itemAdvance it) - min_y := by linarith
        have hoverb : (cy - itemAdvance it) - min_y < cumAdvance (r2 :: rs).dropLast := by
          have hd : (it :: r2 :: rs).dropLast = it :: (r2 :: rs).dropLast := rfl
          rw [hd] at hover
          simp only [cumAdvance, List.map_cons, List.sum_cons] at hover
          simp only [cumAdvance]
          linarith
        have hlt := ih (cy - itemAdvance it) h0b hoverb
        simp only [keptItems, hncy, if_neg]
        simpa using Nat.succ_lt_succ hlt

/-- C4 (amended).  The overflow check compares the cursor against the
reserved floor before each item without predicting the advance of the
item about to be drawn, so truncation is guaranteed only when the
cumulative advance of every sorted item but the last exceeds the room
between the cursor entering the item loop and the floor min_y =
y + MARGIN + 20.  In that case the loop raises nothing and processes
strictly fewer items than items.length (the processed items are counted
by their unique setFont("Helvetica", 11) call). -/
theorem c4_overflow_truncates (r : CardRenderer) (cy : ℚ)
    (hok : ∀ it ∈ r.routine.items, itemOk it = true)
    (hrec : ∀ it ∈ r.routine.items, it.recognized = true)
    (h0 : 0 ≤ cy - (r.y + MARGIN + 20))
    (hover : cy - (r.y + MARGIN + 20) < cumAdvance (sortItems r.routine.items).dropLast) :
    (r.draw_items cy).2.2 = none ∧
    ((r.draw_items cy).1).countP isItemFontOp < r.routine.items.length := by
  have hperm := sortItems_perm r.routine.items
  have hsort_ok : ∀ it ∈ sortItems r.routine.items, itemOk it = true := fun it h =>
    hok it (hperm.mem_iff.mp h)
  have heq : r.draw_items cy
      = drawItemsGo (r.y + MARGIN + 20) (r.x + MARGIN + MARKER_RADIUS * 2)
          (r.width - (2 * MARGIN) - (MARKER_RADIUS * 4)) (sortItems r.routine.items) cy := rfl
  obtain ⟨g1, g2, g3, g4, g5⟩ :=
    drawItemsGo_spec (r.y + MARGIN + 20) (r.x + MARGIN + MARKER_RADIUS * 2)
      (r.width - (2 * MARGIN) - (MARKER_RADIUS * 4)) (sortItems r.routine.items) cy hsort_ok
  rw [heq]
  refine ⟨g1, ?_⟩
  rw [g5]
  have hlen := keptItems_length_lt (r.y + MARGIN + 20) (sortItems r.routine.items) cy h0 hover
  calc (keptItems (r.y + MARGIN + 20) (sortItems r.routine.items) cy).countP Item.recognized
      ≤ (keptItems (r.y + MARGIN + 20) (sortItems r.routine.items) cy).length :=
        List.countP_le_length _
    _ < (sortItems r.routine.items).length := hlen
    _ = r.routine.items.length := hperm.length_eq

/-- The header advances the cursor by 14 + 10 + 15 = 39 points. -/
theorem draw_header_snd (r : CardRenderer) (cy : ℚ) :
    (r.draw_header cy).2 = cy - 14 - 10 - 15 := by
  simp [CardRenderer.draw_header]

/-- Shape of a successful card draw: markers, header, items, version. -/
theorem cardRenderer_draw_eq (r : CardRenderer)
    (h : (r.draw_items (r.y + r.height - MARGIN - 14 - 10 - 15)).2.2 = none) :
    r.draw = (r.draw_alignment_markers ++ ((r.draw_header (r.y + r.height - MARGIN)).1
      ++ ((r.draw_items (r.y + r.height - MARGIN - 14 - 10 - 15)).1 ++ r.draw_version)),
      none) := by
  unfold CardRenderer.draw
  simp only [draw_header_snd, h, List.append_assoc]

/-- Card-level replay of CardRenderer.draw for a routine whose items are
all ok: no exception, exactly one drawRightString (the version stamp), no
showPage, and one setFont("Helvetica", 11) per processed recognized item
(the cursor enters the item loop at y + height - MARGIN - 39 after the
header). -/
theorem cardRenderer_draw_spec (r : CardRenderer) (hr : routineOk r.routine = true) :
    (r.draw).2 = none ∧
    ((r.draw).1).countP isDrawRightStringOp = 1 ∧
    ((r.draw).1).countP isShowPageOp = 0 ∧
    ((r.draw).1).countP isItemFontOp
      = (keptItems (r.y + MARGIN + 20) (sortItems r.routine.items)
          (r.y + r.height - MARGIN - 14 - 10 - 15)).countP Item.recognized := by
  have hall : ∀ it ∈ r.routine.items, itemOk it = true := by
    simpa [routineOk, List.all_eq_true] using hr
  have hsort_ok : ∀ it ∈ sortItems r.routine.items, itemOk it = true := fun it h =>
    hall it ((sortItems_perm _).mem_iff.mp h)
  obtain ⟨g1, g2, g3, g4, g5⟩ :=
    drawItemsGo_spec (r.y + MARGIN + 20) (r.x + MARGIN + MARKER_RADIUS * 2)
      (r.width - (2 * MARGIN) - (MARKER_RADIUS * 4)) (sortItems r.routine.items)
      (r.y + r.height - MARGIN - 14 - 10 - 15) hsort_ok
  have hitems : r.draw_items (r.y + r.height - MARGIN - 14 - 10 - 15)
      = drawItemsGo (r.y + MARGIN + 20) (r.x + MARGIN + MARKER_RADIUS * 2)
          (r.width - (2 * MARGIN) - (MARKER_RADIUS * 4)) (sortItems r.routine.items)
          (r.y + r.height - MARGIN - 14 - 10 - 15) := rfl
  have hdr : r.draw_header (r.y + r.height - MARGIN)
      = ((r.draw_header (r.y + r.height - MARGIN)).1, r.y + r.height - MARGIN - 14 - 10 - 15) := by
    simp [CardRenderer.draw_header]
  refine ⟨?_, ?_, ?_, ?_⟩ <;>
    norm_num [CardRenderer.draw, hdr, hitems, g1, g2, g3, g4, g5,
              CardRenderer.draw_header, CardRenderer.draw_alignment_markers,
              CardRenderer.draw_version, List.countP_append, List.countP_cons,
              isDrawRightStringOp, isShowPageOp, isItemFontOp]

/-- Seven recognized items whose advances are 54, 54, 54, 54, 54, 26, 70:
the first six total 296 and all seven total 366. -/
def c4Items : List Item :=
  [⟨some "number", some "n1", some 0, none, none⟩,
   ⟨some "number", some "n2", some 1, none, none⟩,
   ⟨some "number", some "n3", some 2, none, none⟩,
   ⟨some "number", some "n4", some 3, none, none⟩,
   ⟨some "number", some "n5", some 4, none, none⟩,
   ⟨some "checkbox", some "c6", some 5, none, none⟩,
   ⟨some "scale", some "s7", some 6, none, some true⟩]

/-- A quarter-layout card at the top-left cell of a page. -/
def c4Renderer : CardRenderer :=
  ⟨0, PAGE_HEIGHT - 396, 306, 396, ⟨"R", c4Items, some 1⟩, 1⟩

/-- Counterexample to C4 as stated: for this card the cumulative vertical
advance of the items (366) exceeds the available content height under any
reading (card height between the margins is 360, the item region below
the header is 301), yet the renderer draws all 7 of the 7 items — not
strictly fewer — and raises no error, because the pre-item check only
fires once the cursor is already below the floor. -/
theorem c4_counterexample :
    cumAdvance c4Items > 396 - 2 * MARGIN ∧
    (c4Renderer.draw).2 = none ∧
    ((c4Renderer.draw).1).countP isItemFontOp = c4Items.length := by
  obtain ⟨d1, d2, d3, d4⟩ := cardRenderer_draw_spec c4Renderer (by decide)
  refine ⟨?_, d1, ?_⟩
  · norm_num +decide [cumAdvance, itemAdvance, c4Items, MARGIN, CHECKBOX_SIZE,
              NUMBER_BOX_HEIGHT, SCALE_BOX_SIZE]
  · rw [d4]
    norm_num +decide [c4Renderer, c4Items, keptItems, sortItems, insertByOrder, itemOrder,
              itemAdvance, Item.recognized, isRecognizedType, MARGIN, PAGE_HEIGHT,
              CHECKBOX_SIZE, NUMBER_BOX_HEIGHT, SCALE_BOX_SIZE, List.countP_cons]

/-- Seven plain number items (advance 54 each): the first six already
total 324 > 301, so the amended C4 applies. -/
def c4wItems : List Item :=
  [⟨some "number", some "m1", some 0, none, none⟩,
   ⟨some "number", some "m2", some 1, none, none⟩,
   ⟨some "number", some "m3", some 2, none, none⟩,
   ⟨some "number", some "m4", some 3, none, none⟩,
   ⟨some "number", some "m5", some 4, none, none⟩,
   ⟨some "number", some "m6", some 5, none, none⟩,
   ⟨some "number", some "m7", some 6, none, none⟩]

/-- The same quarter-layout geometry with the c4wItems routine. -/
def c4wRenderer : CardRenderer :=
  ⟨0, PAGE_HEIGHT - 396, 306, 396, ⟨"R", c4wItems, some 1⟩, 1⟩

/-- Witness for the amended C4 at a card whose post-header cursor is 735. -/
theorem c4_overflow_truncates_witness :
    (∀ it ∈ c4wRenderer.routine.items, itemOk it = true) ∧
    (∀ it ∈ c4wRenderer.routine.items, it.recognized = true) ∧
    0 ≤ (735 : ℚ) - (c4wRenderer.y + MARGIN + 20) ∧
    (735 : ℚ) - (c4wRenderer.y + MARGIN + 20)
      < cumAdvance (sortItems c4wRenderer.routine.items).dropLast ∧
    ((c4wRenderer.draw_items 735).2.2 = none ∧
     ((c4wRenderer.draw_items 735).1).countP isItemFontOp
       < c4wRenderer.routine.items.length) :=
  ⟨by decide, by decide,
   by norm_num [c4wRenderer, MARGIN, PAGE_HEIGHT],
   by norm_num +decide [c4wRenderer, c4wItems, sortItems, insertByOrder, itemOrder,
                cumAdvance, itemAdvance, MARGIN, NUMBER_BOX_HEIGHT, PAGE_HEIGHT, CHECKBOX_SIZE],
   c4_overflow_truncates c4wRenderer 735 (by decide) (by decide)
     (by norm_num [c4wRenderer, MARGIN, PAGE_HEIGHT])
     (by norm_num +decide [c4wRenderer, c4wItems, sortItems, insertByOrder, itemOrder,
                   cumAdvance, itemAdvance, MARGIN, NUMBER_BOX_HEIGHT, PAGE_HEIGHT,
                   CHECKBOX_SIZE])⟩

theorem fillAfter_append (c : PdfColor) (l1 l2 : List Op) :
    fillAfter c (l1 ++ l2) = fillAfter (fillAfter c l1) l2 := by
  simp [fillAfter, List.foldl_append]

theorem strokeAfter_append (c : PdfColor) (l1 l2 : List Op) :
    strokeAfter c (l1 ++ l2) = strokeAfter (strokeAfter c l1) l2 := by
  simp [strokeAfter, List.foldl_append]

/-- Spec-side predicate for the item kinds whose render rule touches gray
ink: a number item with a truthy unit (its unit label), every scale item
(the ordinal labels, plus the notes label and rule when hasNotes), and
every text item (the answer rules).  A checkbox or unrecognized item
never sets gray. -/
def itemUsesGray (it : Item) : Bool :=
  match it.type with
  | none => false
  | some t =>
    if t = "number" then (match it.unit with | some u => !(u == "") | none => false)
    else if t = "scale" then true
    else if t = "text" then true
    else false

theorem itemUsesGray_recognized (it : Item) (hg : itemUsesGray it = true) :
    it.recognized = true := by
  obtain ⟨t, n, o, u, hb⟩ := it
  cases t with
  | none => simp [itemUsesGray] at hg
  | some tv =>
    simp only [itemUsesGray] at hg
    by_cases h2 : tv = "number"
    · subst h2
      simp +decide [Item.recognized, isRecognizedType]
    · by_cases h3 : tv = "scale"
      · subst h3
        simp +decide [Item.recognized, isRecognizedType]
      · by_cases h4 : tv = "text"
        · subst h4
          simp +decide [Item.recognized, isRecognizedType]
        · simp [h2, h3, h4] at hg

/-- Color invariant of the item loop: entering with both canvas colors
black, the loop leaves both black whatever prefix of items it processes. -/
theorem drawItemsGo_colors (min_y content_x content_width : ℚ) :
    ∀ (l : List Item) (cy : ℚ), (∀ it ∈ l, itemOk it = true) →
      fillAfter PdfColor.black ((drawItemsGo min_y content_x content_width l cy).1)
        = PdfColor.black ∧
      strokeAfter PdfColor.black ((drawItemsGo min_y content_x content_width l cy).1)
        = PdfColor.black := by
  intro l
  induction l with
  | nil => intro cy _; simp [drawItemsGo, fillAfter, strokeAfter]
  | cons it rest ih =>
    intro cy hok
    have hit : itemOk it = true := hok it (by simp)
    have hrest : ∀ x ∈ rest, itemOk x = true := fun x hx => hok x (by simp [hx])
    by_cases hcy : cy < min_y
    · simp [drawItemsGo, hcy, fillAfter, strokeAfter]
    · obtain ⟨e1, e2, _, _, _, e6, e7⟩ :=
        drawItemDispatch_spec content_x content_width cy PdfColor.black PdfColor.black it hit
      rcases hcall : drawItemDispatch content_x content_width it cy with ⟨ops, cy2, err⟩
      rw [hcall] at e1 e2 e6 e7
      simp only at e1 e2 e6 e7
      subst e1
      subst e2
      obtain ⟨g1, g2⟩ := ih (cy - itemAdvance it) hrest
      have e6b : fillAfter PdfColor.black ops = PdfColor.black := by
        rw [e6]; exact ite_self _
      have e7b : strokeAfter PdfColor.black ops = PdfColor.black := by
        rw [e7]; exact ite_self _
      constructor
      · simp [drawItemsGo, hcy, hcall, fillAfter_append, e6b, g1]
      · simp [drawItemsGo, hcy, hcall, strokeAfter_append, e7b, g2]

/-- Whatever the canvas colors were before a card, the prefix of the card
up to (but not including) the version stamp leaves both colors black: the
markers and header force black, and the item loop preserves it. -/
theorem cardRenderer_colors_at_version (r : CardRenderer)
    (hr : routineOk r.routine = true) (f s : PdfColor) :
    ∃ pre, (r.draw).1 = pre ++ r.draw_version ∧ (r.draw).2 = none ∧
      fillAfter f pre = PdfColor.black ∧ strokeAfter s pre = PdfColor.black := by
  have hall : ∀ it ∈ r.routine.items, itemOk it = true := by
    simpa [routineOk, List.all_eq_true] using hr
  have hsort_ok : ∀ it ∈ sortItems r.routine.items, itemOk it = true := fun it h =>
    hall it ((sortItems_perm _).mem_iff.mp h)
  obtain ⟨g1, _, _, _, _⟩ :=
    drawItemsGo_spec (r.y + MARGIN + 20) (r.x + MARGIN + MARKER_RADIUS * 2)
      (r.width - (2 * MARGIN) - (MARKER_RADIUS * 4)) (sortItems r.routine.items)
      (r.y + r.height - MARGIN - 14 - 10 - 15) hsort_ok
  obtain ⟨k1, k2⟩ :=
    drawItemsGo_colors (r.y + MARGIN + 20) (r.x + MARGIN + MARKER_RADIUS * 2)
      (r.width - (2 * MARGIN) - (MARKER_RADIUS * 4)) (sortItems r.routine.items)
      (r.y + r.height - MARGIN - 14 - 10 - 15) hsort_ok
  have hitems : r.draw_items (r.y + r.height - MARGIN - 14 - 10 - 15)
      = drawItemsGo (r.y + MARGIN + 20) (r.x + MARGIN + MARKER_RADIUS * 2)
          (r.width - (2 * MARGIN) - (MARKER_RADIUS * 4)) (sortItems r.routine.items)
          (r.y + r.height - MARGIN - 14 - 10 - 15) := rfl
  have heq := cardRenderer_draw_eq r (by rw [hitems]; exact g1)
  refine ⟨r.draw_alignment_markers ++ ((r.draw_header (r.y + r.height - MARGIN)).1
      ++ (r.draw_items (r.y + r.height - MARGIN - 14 - 10 - 15)).1), ?_, ?_, ?_, ?_⟩
  · rw [heq]
    simp [List.append_assoc]
  · rw [heq]
  · rw [fillAfter_append, fillAfter_append, hitems]
    have hbase : fillAfter (fillAfter f r.draw_alignment_markers)
        ((r.draw_header (r.y + r.height - MARGIN)).1) = PdfColor.black := by
      simp [CardRenderer.draw_alignment_markers, CardRenderer.draw_header,
            fillAfter, GRAY]
    rw [hbase, k1]
  · rw [strokeAfter_append, strokeAfter_append, hitems]
    have hbase : strokeAfter (strokeAfter s r.draw_alignment_markers)
        ((r.draw_header (r.y + r.height - MARGIN)).1) = PdfColor.black := by
      simp [CardRenderer.draw_alignment_markers, CardRenderer.draw_header,
            strokeAfter, GRAY]
    rw [hbase, k2]

/-- C5.  After any item that uses gray ink finishes drawing, both the
fill color and the stroke color in effect at the start of the next item
are black, whatever the colors were before the item; and for a whole card
of ok items the entire prefix preceding the version stamp leaves both
colors black — gray styling never leaks across item boundaries or onto
the version stamp. -/
theorem c5_gray_never_leaks (content_x content_width cy : ℚ) (f s : PdfColor)
    (it : Item) (hok : itemOk it = true) (hg : itemUsesGray it = true)
    (r : CardRenderer) (f2 s2 : PdfColor) (hr : routineOk r.routine = true) :
    fillAfter f ((drawItemDispatch content_x content_width it cy).1) = PdfColor.black ∧
    strokeAfter s ((drawItemDispatch content_x content_width it cy).1) = PdfColor.black ∧
    ∃ pre, (r.draw).1 = pre ++ r.draw_version ∧ (r.draw).2 = none ∧
      fillAfter f2 pre = PdfColor.black ∧ strokeAfter s2 pre = PdfColor.black := by
  have hrec := itemUsesGray_recognized it hg
  obtain ⟨_, _, _, _, _, h6, h7⟩ :=
    drawItemDispatch_spec content_x content_width cy f s it hok
  exact ⟨by simpa [hrec] using h6, by simpa [hrec] using h7,
         cardRenderer_colors_at_version r hr f2 s2⟩

/-- A gray-using item for the C5 witness: a scale item with notes. -/
def c5Item : Item := ⟨some "scale", some "Mood", some 0, none, some true⟩

/-- A small valid card for the C5 witness. -/
def c5Renderer : CardRenderer :=
  ⟨0, 396, 306, 396, ⟨"W", [⟨some "checkbox", some "Pushups", some 0, none, none⟩], some 1⟩, 1⟩

/-- Witness for C5 with both canvas colors initially gray. -/
theorem c5_gray_never_leaks_witness :
    itemOk c5Item = true ∧ itemUsesGray c5Item = true ∧
    routineOk c5Renderer.routine = true ∧
    (fillAfter PdfColor.gray ((drawItemDispatch 30 250 c5Item 700).1) = PdfColor.black ∧
     strokeAfter PdfColor.gray ((drawItemDispatch 30 250 c5Item 700).1) = PdfColor.black ∧
     ∃ pre, (c5Renderer.draw).1 = pre ++ c5Renderer.draw_version ∧
       (c5Renderer.draw).2 = none ∧
       fillAfter PdfColor.gray pre = PdfColor.black ∧
       strokeAfter PdfColor.gray pre = PdfColor.black) :=
  ⟨by decide, by decide, by decide,
   c5_gray_never_leaks 30 250 700 PdfColor.gray PdfColor.gray c5Item (by decide) (by decide)
     c5Renderer PdfColor.gray PdfColor.gray (by decide)⟩

/-- Dispatching an item with an unrecognized type draws nothing, leaves
the cursor unchanged and raises nothing (the elif chain falls through). -/
theorem drawItemDispatch_unknown (content_x content_width cy : ℚ) (it : Item)
    (t : String) (ht : it.type = some t) (hu : isRecognizedType t = false) :
    drawItemDispatch content_x content_width it cy = ([], cy, none) := by
  have h1 : t ≠ "checkbox" := fun h => by subst h; simp [isRecognizedType] at hu
  have h2 : t ≠ "number" := fun h => by subst h; simp [isRecognizedType] at hu
  have h3 : t ≠ "scale" := fun h => by subst h; simp [isRecognizedType] at hu
  have h4 : t ≠ "text" := fun h => by subst h; simp [isRecognizedType] at hu
  simp [drawItemDispatch, ht, h1, h2, h3, h4]

/-- Removing an unrecognized item from anywhere in the processed sequence
does not change the item loop at all. -/
theorem drawItemsGo_skip_unknown (min_y content_x content_width : ℚ) (it : Item)
    (t : String) (ht : it.type = some t) (hu : isRecognizedType t = false) :
    ∀ (s1 s2 : List Item) (cy : ℚ),
      drawItemsGo min_y content_x content_width (s1 ++ it :: s2) cy
        = drawItemsGo min_y content_x content_width (s1 ++ s2) cy := by
  intro s1
  induction s1 with
  | nil =>
    intro s2 cy
    simp only [List.nil_append]
    by_cases hcy : cy < min_y
    · cases s2 with
      | nil => simp [drawItemsGo, hcy]
      | cons b bs => simp [drawItemsGo, hcy]
    · have hd := drawItemDispatch_unknown content_x content_width cy it t ht hu
      simp [drawItemsGo, hcy, hd]
  | cons a s1 ih =>
    intro s2 cy
    simp only [List.cons_append]
    by_cases hcy : cy < min_y
    · simp [drawItemsGo, hcy]
    · rcases hcall : drawItemDispatch content_x content_width a cy with ⟨ops, cy2, err⟩
      cases err with
      | some e => simp [drawItemsGo, hcy, hcall]
      | none => simp [drawItemsGo, hcy, hcall, ih s2 cy2]

/-- One insertion step preserves a marked occurrence: inserting b into a
sorted list containing a marked it keeps it in place, and the same
insertion into the list without it gives the same surroundings. -/
theorem insertByOrder_middle (b it : Item) :
    ∀ (s1 s2 : List Item), (s1 ++ it :: s2).Pairwise orderLe →
      ∃ u1 u2, insertByOrder b (s1 ++ it :: s2) = u1 ++ it :: u2 ∧
        insertByOrder b (s1 ++ s2) = u1 ++ u2 := by
  intro s1
  induction s1 with
  | nil =>
    intro s2 hp
    simp only [List.nil_append]
    by_cases hle : itemOrder it ≤ itemOrder b
    · exact ⟨[], insertByOrder b s2, by simp [insertByOrder, hle], rfl⟩
    · refine ⟨[b], s2, by simp [insertByOrder, hle], ?_⟩
      cases s2 with
      | nil => rfl
      | cons c cs =>
        have hic : orderLe it c := (List.pairwise_cons.mp hp).1 c (by simp)
        have hcb : ¬ itemOrder c ≤ itemOrder b := by
          simp only [orderLe] at hic
          omega
        simp [insertByOrder, hcb]
  | cons a s1 ih =>
    intro s2 hp
    simp only [List.cons_append]
    by_cases hle : itemOrder a ≤ itemOrder b
    · obtain ⟨u1, u2, h1, h2⟩ := ih s2 (List.pairwise_cons.mp hp).2
      exact ⟨a :: u1, u2, by simp [insertByOrder, hle, h1],
             by simp [insertByOrder, hle, h2]⟩
    · exact ⟨b :: a :: s1, s2, by simp [insertByOrder, hle],
             by simp [insertByOrder, hle]⟩

/-- Folding further insertions preserves the marked occurrence. -/
theorem foldl_insert_middle (it : Item) :
    ∀ (l2 : List Item) (s1 s2 : List Item), (s1 ++ it :: s2).Pairwise orderLe →
      ∃ u1 u2,
        l2.foldl (fun acc a => insertByOrder a acc) (s1 ++ it :: s2) = u1 ++ it :: u2 ∧
        l2.foldl (fun acc a => insertByOrder a acc) (s1 ++ s2) = u1 ++ u2 ∧
        (u1 ++ it :: u2).Pairwise orderLe := by
  intro l2
  induction l2 with
  | nil => intro s1 s2 hp; exact ⟨s1, s2, rfl, rfl, hp⟩
  | cons b l2 ih =>
    intro s1 s2 hp
    obtain ⟨u1, u2, h1, h2⟩ := insertByOrder_middle b it s1 s2 hp
    have hp2 : (u1 ++ it :: u2).Pairwise orderLe := by
      rw [← h1]
      exact insertByOrder_pairwise b _ hp
    obtain ⟨v1, v2, g1, g2, g3⟩ := ih u1 u2 hp2
    refine ⟨v1, v2, ?_, ?_, g3⟩
    · simp only [List.foldl_cons, h1]
      exact g1
    · simp only [List.foldl_cons, h2]
      exact g2

/-- Stability of the sort under removal of one occurrence: sorting with
the marked item and sorting without it give the same list around it. -/
theorem sortItems_remove_middle (it : Item) (l1 l2 : List Item) :
    ∃ u1 u2, sortItems (l1 ++ it :: l2) = u1 ++ it :: u2 ∧
      sortItems (l1 ++ l2) = u1 ++ u2 := by
  have e1 : sortItems (l1 ++ it :: l2)
      = l2.foldl (fun acc a => insertByOrder a acc) (insertByOrder it (sortItems l1)) := by
    simp [sortItems, List.foldl_append]
  have e2 : sortItems (l1 ++ l2)
      = l2.foldl (fun acc a => insertByOrder a acc) (sortItems l1) := by
    simp [sortItems, List.foldl_append]
  obtain ⟨s1, s2, hd1, hd2, _⟩ :=
    insertByOrder_decomp it (sortItems l1) (sortItems_pairwise l1)
  have hp : (s1 ++ it :: s2).Pairwise orderLe := by
    rw [← hd2]
    exact insertByOrder_pairwise it _ (sortItems_pairwise l1)
  obtain ⟨u1, u2, g1, g2, _⟩ := foldl_insert_middle it l2 s1 s2 hp
  refine ⟨u1, u2, ?_, ?_⟩
  · rw [e1, hd2]
    exact g1
  · rw [e2, hd1]
    exact g2

/-- C8.  An item whose type is present but not one of the four recognized
kinds is skipped silently: its dispatch issues no drawing call, leaves
the cursor unchanged and raises nothing, and the item loop over any
sequence containing it behaves exactly as on the sequence with the item
removed, so every recognized item around it is still rendered. -/
theorem c8_unknown_type_skipped (content_x content_width cy min_y : ℚ)
    (it : Item) (t : String) (ht : it.type = some t) (hu : isRecognizedType t = false)
    (s1 s2 : List Item) :
    drawItemDispatch content_x content_width it cy = ([], cy, none) ∧
    drawItemsGo min_y content_x content_width (s1 ++ it :: s2) cy
      = drawItemsGo min_y content_x content_width (s1 ++ s2) cy :=
  ⟨drawItemDispatch_unknown content_x content_width cy it t ht hu,
   drawItemsGo_skip_unknown min_y content_x content_width it t ht hu s1 s2 cy⟩

/-- An unrecognized item for the C8 and C10 witnesses. -/
def c8Item : Item := ⟨some "slider", some "Volume", some 1, none, none⟩

/-- Two recognized neighbours for the C8 witness. -/
def c8Before : Item := ⟨some "checkbox", some "A", some 0, none, none⟩

def c8After : Item := ⟨some "text", some "B", some 2, none, none⟩

/-- Witness for C8 around the unrecognized slider item. -/
theorem c8_unknown_type_skipped_witness :
    c8Item.type = some "slider" ∧ isRecognizedType "slider" = false ∧
    (drawItemDispatch 30 250 c8Item 700 = ([], 700, none) ∧
     drawItemsGo 434 30 250 ([c8Before] ++ c8Item :: [c8After]) 700
       = drawItemsGo 434 30 250 ([c8Before] ++ [c8After]) 700) :=
  ⟨rfl, by decide,
   c8_unknown_type_skipped 30 250 700 434 c8Item "slider" rfl (by decide)
     [c8Before] [c8After]⟩

/-- C10.  Rendering a routine that contains an unrecognized item is
operation-for-operation identical to rendering the same routine with that
item removed: the unknown item consumes no vertical space, perturbs no
style state, and every subsequent item and the version stamp land at
identical positions. -/
theorem c10_unknown_item_frame (x y w h : ℚ) (nm : String) (ver : Option Int) (v : Int)
    (l1 l2 : List Item) (it : Item) (t : String)
    (ht : it.type = some t) (hu : isRecognizedType t = false) :
    CardRenderer.draw ⟨x, y, w, h, ⟨nm, l1 ++ it :: l2, ver⟩, v⟩
      = CardRenderer.draw ⟨x, y, w, h, ⟨nm, l1 ++ l2, ver⟩, v⟩ := by
  obtain ⟨u1, u2, h1, h2⟩ := sortItems_remove_middle it l1 l2
  have hitems : ∀ cy : ℚ,
      CardRenderer.draw_items ⟨x, y, w, h, ⟨nm, l1 ++ it :: l2, ver⟩, v⟩ cy
        = CardRenderer.draw_items ⟨x, y, w, h, ⟨nm, l1 ++ l2, ver⟩, v⟩ cy := by
    intro cy
    have e1 : CardRenderer.draw_items ⟨x, y, w, h, ⟨nm, l1 ++ it :: l2, ver⟩, v⟩ cy
        = drawItemsGo (y + MARGIN + 20) (x + MARGIN + MARKER_RADIUS * 2)
            (w - (2 * MARGIN) - (MARKER_RADIUS * 4)) (sortItems (l1 ++ it :: l2)) cy := rfl
    have e2 : CardRenderer.draw_items ⟨x, y, w, h, ⟨nm, l1 ++ l2, ver⟩, v⟩ cy
        = drawItemsGo (y + MARGIN + 20) (x + MARGIN + MARKER_RADIUS * 2)
            (w - (2 * MARGIN) - (MARKER_RADIUS * 4)) (sortItems (l1 ++ l2)) cy := rfl
    rw [e1, e2, h1, h2]
    exact drawItemsGo_skip_unknown (y + MARGIN + 20) (x + MARGIN + MARKER_RADIUS * 2)
      (w - (2 * MARGIN) - (MARKER_RADIUS * 4)) it t ht hu u1 u2 cy
  have hm : CardRenderer.draw_alignment_markers ⟨x, y, w, h, ⟨nm, l1 ++ it :: l2, ver⟩, v⟩
      = CardRenderer.draw_alignment_markers ⟨x, y, w, h, ⟨nm, l1 ++ l2, ver⟩, v⟩ := rfl
  have hh : ∀ cy : ℚ, CardRenderer.draw_header ⟨x, y, w, h, ⟨nm, l1 ++ it :: l2, ver⟩, v⟩ cy
      = CardRenderer.draw_header ⟨x, y, w, h, ⟨nm, l1 ++ l2, ver⟩, v⟩ cy := fun _ => rfl
  have hv : CardRenderer.draw_version ⟨x, y, w, h, ⟨nm, l1 ++ it :: l2, ver⟩, v⟩
      = CardRenderer.draw_version ⟨x, y, w, h, ⟨nm, l1 ++ l2, ver⟩, v⟩ := rfl
  unfold CardRenderer.draw
  simp only [hitems, hm, hh, hv]

/-- Witness for C10: a card with the slider item inserted between two
recognized items renders identically to the card without it. -/
theorem c10_unknown_item_frame_witness :
    c8Item.type = some "slider" ∧ isRecognizedType "slider" = false ∧
    CardRenderer.draw ⟨0, 396, 306, 396, ⟨"W", [c8Before] ++ c8Item :: [c8After], some 1⟩, 1⟩
      = CardRenderer.draw ⟨0, 396, 306, 396, ⟨"W", [c8Before] ++ [c8After], some 1⟩, 1⟩ :=
  ⟨rfl, by decide,
   c10_unknown_item_frame 0 396 306 396 "W" (some 1) 1 [c8Before] [c8After] c8Item "slider"
     rfl (by decide)⟩

/-- Cut guides contain no drawRightString, no showPage and no item font. -/
theorem draw_cut_guides_counts (cfg : LayoutConfig) :
    (draw_cut_guides cfg).countP isDrawRightStringOp = 0 ∧
    (draw_cut_guides cfg).countP isShowPageOp = 0 ∧
    (draw_cut_guides cfg).countP isItemFontOp = 0 := by
  refine ⟨?_, ?_, ?_⟩ <;>
    simp [draw_cut_guides, List.countP_append, List.countP_map, List.countP_cons,
          isDrawRightStringOp, isShowPageOp, isItemFontOp, Function.comp,
          List.countP_eq_zero]

/-- The positive entries of range n number n - 1. -/
theorem countP_pos_range (n : Nat) :
    (List.range n).countP (fun p => decide (0 < p)) = n - 1 := by
  induction n with
  | zero => simp
  | succ k ih =>
    rw [List.range_succ, List.countP_append, ih]
    cases k with
    | zero => simp
    | succ j => simp [List.countP_cons]

/-- Characterization of the Nat ceiling of a rational division. -/
theorem nat_ceil_div_eq (q c m : Nat) (hc : 0 < c) (hm : 0 < m)
    (h1 : q ≤ c * m) (h2 : c * (m - 1) < q) :
    ⌈(q : ℚ) / (c : ℚ)⌉₊ = m := by
  obtain ⟨k, rfl⟩ : ∃ k, m = k + 1 := ⟨m - 1, by omega⟩
  have hcQ : (0 : ℚ) < (c : ℚ) := by positivity
  rw [Nat.ceil_eq_iff (Nat.succ_ne_zero k)]
  constructor
  · rw [lt_div_iff hcQ]
    have h2b : c * k < q := by simpa using h2
    have := (Nat.cast_lt (α := ℚ)).mpr h2b
    push_cast at this ⊢
    linarith [this]
  · rw [div_le_iff hcQ]
    have := (Nat.cast_le (α := ℚ)).mpr h1
    push_cast at this ⊢
    linarith [this]

/-- The inner column loop: it never raises for an ok routine, advances
the card counter to min quantity (idx + number of cells) but never below
idx, emits one drawRightString per card actually rendered and no
showPage. -/
theorem cardCellLoop_spec (cfg : LayoutConfig) (routine : Routine) (q : Nat) (row : Nat)
    (hr : routineOk routine = true) :
    ∀ (cols : List Nat) (idx : Nat),
      (cardCellLoop cfg routine q row cols idx).2.1 = none ∧
      (cardCellLoop cfg routine q row cols idx).2.2 = max idx (min q (idx + cols.length)) ∧
      ((cardCellLoop cfg routine q row cols idx).1).countP isDrawRightStringOp
        = max idx (min q (idx + cols.length)) - idx ∧
      ((cardCellLoop cfg routine q row cols idx).1).countP isShowPageOp = 0 := by
  intro cols
  induction cols with
  | nil =>
    intro idx
    refine ⟨rfl, ?_, ?_, ?_⟩ <;> simp [cardCellLoop] <;> omega
  | cons c cols ih =>
    intro idx
    by_cases hq : idx ≥ q
    · refine ⟨?_, ?_, ?_, ?_⟩ <;> simp [cardCellLoop, hq] <;> omega
    · obtain ⟨d1, d2, d3, _⟩ := cardRenderer_draw_spec
        ⟨(c : ℚ) * cfg.width, PAGE_HEIGHT - ((row : ℚ) + 1) * cfg.height,
         cfg.width, cfg.height, routine, routine.version.getD 1⟩ hr
      rcases hdraw : CardRenderer.draw
          ⟨(c : ℚ) * cfg.width, PAGE_HEIGHT - ((row : ℚ) + 1) * cfg.height,
           cfg.width, cfg.height, routine, routine.version.getD 1⟩ with ⟨ops, err⟩
      rw [hdraw] at d1 d2 d3
      simp only at d1 d2 d3
      subst d1
      obtain ⟨i1, i2, i3, i4⟩ := ih (idx + 1)
      refine ⟨?_, ?_, ?_, ?_⟩
      · simp [cardCellLoop, hq, hdraw, i1]
      · simp only [cardCellLoop, List.length_cons]
        rw [if_neg hq]
        simp only [hdraw, i2]
        omega
      · simp only [cardCellLoop, List.length_cons]
        rw [if_neg hq]
        simp only [hdraw, List.countP_append, d2, i3, i2]
        omega
      · simp only [cardCellLoop, List.length_cons]
        rw [if_neg hq]
        simp only [hdraw, List.countP_append, d3, i4]

/-- The outer row loop: the per-row break only skips the rest of one row,
so the whole grid advances the counter to min quantity (idx + rows*cols). -/
theorem cardRowLoop_spec (cfg : LayoutConfig) (routine : Routine) (q : Nat)
    (hr : routineOk routine = true) :
    ∀ (rows : List Nat) (idx : Nat),
      (cardRowLoop cfg routine q rows idx).2.1 = none ∧
      (cardRowLoop cfg routine q rows idx).2.2
        = max idx (min q (idx + rows.length * cfg.cols)) ∧
      ((cardRowLoop cfg routine q rows idx).1).countP isDrawRightStringOp
        = max idx (min q (idx + rows.length * cfg.cols)) - idx ∧
      ((cardRowLoop cfg routine q rows idx).1).countP isShowPageOp = 0 := by
  intro rows
  induction rows with
  | nil =>
    intro idx
    refine ⟨rfl, ?_, ?_, ?_⟩ <;> simp [cardRowLoop] <;> omega
  | cons r rows ih =>
    intro idx
    obtain ⟨c1, c2, c3, c4⟩ := cardCellLoop_spec cfg routine q r hr (List.range cfg.cols) idx
    rcases hcell : cardCellLoop cfg routine q r (List.range cfg.cols) idx with ⟨ops, err, idx2⟩
    rw [hcell] at c1 c2 c3 c4
    simp only [List.length_range] at c1 c2 c3 c4
    subst c1
    obtain ⟨i1, i2, i3, i4⟩ := ih idx2
    subst c2
    refine ⟨?_, ?_, ?_, ?_⟩
    · simp [cardRowLoop, hcell, i1]
    · simp only [cardRowLoop, hcell, List.length_cons, Nat.succ_mul, i2]
      omega
    · simp only [cardRowLoop, hcell, List.length_cons, Nat.succ_mul,
                 List.countP_append, c3, i3, i2]
      omega
    · simp only [cardRowLoop, hcell, List.countP_append, c4, i4]

/-- The page loop: every page after index 0 emits exactly one showPage,
cut guides draw no cards, and the counter advances by at most
rows*cols cards per page. -/
theorem pdfPageLoop_spec (cfg : LayoutConfig) (routine : Routine) (q : Nat)
    (hr : routineOk routine = true) :
    ∀ (pages : List Nat) (idx : Nat),
      (pdfPageLoop cfg routine q pages idx).2.1 = none ∧
      (pdfPageLoop cfg routine q pages idx).2.2
        = max idx (min q (idx + pages.length * (cfg.rows * cfg.cols))) ∧
      ((pdfPageLoop cfg routine q pages idx).1).countP isDrawRightStringOp
        = max idx (min q (idx + pages.length * (cfg.rows * cfg.cols))) - idx ∧
      ((pdfPageLoop cfg routine q pages idx).1).countP isShowPageOp
        = pages.countP (fun p => decide (0 < p)) := by
  intro pages
  induction pages with
  | nil =>
    intro idx
    refine ⟨rfl, ?_, ?_, ?_⟩ <;> simp [pdfPageLoop] <;> omega
  | cons p pages ih =>
    intro idx
    obtain ⟨r1, r2, r3, r4⟩ := cardRowLoop_spec cfg routine q hr (List.range cfg.rows) idx
    rcases hrow : cardRowLoop cfg routine q (List.range cfg.rows) idx with ⟨ops, err, idx2⟩
    rw [hrow] at r1 r2 r3 r4
    simp only [List.length_range] at r1 r2 r3 r4
    subst r1
    obtain ⟨i1, i2, i3, i4⟩ := ih idx2
    subst r2
    obtain ⟨gd1, gd2, _⟩ := draw_cut_guides_counts cfg
    have hpreSP : ((if 0 < p then [Op.showPage] else []) ++ draw_cut_guides cfg).countP
        isShowPageOp = if 0 < p then 1 else 0 := by
      by_cases hp : 0 < p <;> simp [hp, List.countP_append, gd2, isShowPageOp]
    have hpreDR : ((if 0 < p then [Op.showPage] else []) ++ draw_cut_guides cfg).countP
        isDrawRightStringOp = 0 := by
      by_cases hp : 0 < p <;> simp [hp, List.countP_append, gd1, isDrawRightStringOp]
    refine ⟨?_, ?_, ?_, ?_⟩
    · simp [pdfPageLoop, hrow, i1]
    · simp only [pdfPageLoop, hrow, List.length_cons, Nat.succ_mul, i2]
      omega
    · simp only [pdfPageLoop, hrow, List.length_cons, Nat.succ_mul,
                 List.countP_append, hpreDR, r3, i3, i2]
      omega
    · simp only [pdfPageLoop, hrow, List.countP_append, hpreSP, r4, i4,
                 List.countP_cons]
      by_cases hp : 0 < p <;> simp [hp] <;> omega

/-- Whole-generation replay for a valid layout and ok routine: no
exception, exactly q drawRightString calls (one card stamp each) and
total_pages - 1 showPage calls across the operation stream. -/
theorem generate_pdf_spec (routine : Routine) (layout : String) (cfg : LayoutConfig)
    (q : Nat) (output_path : Option String)
    (hcfg : LAYOUTS layout = some cfg) (hr : routineOk routine = true)
    (hge : q ≤ ((q + cfg.cols * cfg.rows - 1) / (cfg.cols * cfg.rows)) * (cfg.rows * cfg.cols)) :
    ∃ ops : List Op,
      generate_pdf routine layout q output_path
        = some (ops, none, some (match output_path with
            | none => PdfOutput.bytes ops
            | some _ => PdfOutput.summary ⟨layout, cfg.cols * cfg.rows,
                (q + cfg.cols * cfg.rows - 1) / (cfg.cols * cfg.rows), q⟩)) ∧
      ops.countP isDrawRightStringOp = q ∧
      ops.countP isShowPageOp = (q + cfg.cols * cfg.rows - 1) / (cfg.cols * cfg.rows) - 1 := by
  obtain ⟨p1, p2, p3, p4⟩ := pdfPageLoop_spec cfg routine q hr
    (List.range ((q + cfg.cols * cfg.rows - 1) / (cfg.cols * cfg.rows))) 0
  simp only [List.length_range, Nat.zero_add, Nat.sub_zero] at p3 p4
  refine ⟨(pdfPageLoop cfg routine q
      (List.range ((q + cfg.cols * cfg.rows - 1) / (cfg.cols * cfg.rows))) 0).1, ?_, ?_, ?_⟩
  · simp only [generate_pdf, hcfg, p1]
  · rw [p3]
    generalize hT : (q + cfg.cols * cfg.rows - 1) / (cfg.cols * cfg.rows) = T at hge ⊢
    omega
  · rw [p4, countP_pos_range]

/-- C2.  For every quantity > 0 and valid layout name, generation raises
nothing and emits exactly ceil(quantity / cardsPerPage) pages (one
showPage per page after the first) while invoking the card renderer
exactly quantity times (counted by the one drawRightString stamp each
card emits), never more and never fewer; the returned summary reports
exactly these counts, and the page total equals the rational ceiling. -/
theorem c2_generate_pdf_counts (routine : Routine) (layout : String) (cfg : LayoutConfig)
    (q : Nat) (output_path : Option String)
    (hcfg : LAYOUTS layout = some cfg) (hq : 0 < q) (hr : routineOk routine = true) :
    ∃ ops : List Op,
      generate_pdf routine layout q output_path
        = some (ops, none, some (match output_path with
            | none => PdfOutput.bytes ops
            | some _ => PdfOutput.summary ⟨layout, cfg.cols * cfg.rows,
                (q + cfg.cols * cfg.rows - 1) / (cfg.cols * cfg.rows), q⟩)) ∧
      ops.countP isDrawRightStringOp = q ∧
      ops.countP isShowPageOp + 1 = (q + cfg.cols * cfg.rows - 1) / (cfg.cols * cfg.rows) ∧
      (q + cfg.cols * cfg.rows - 1) / (cfg.cols * cfg.rows)
        = ⌈(q : ℚ) / ((cfg.cols * cfg.rows : Nat) : ℚ)⌉₊ := by
  have hcases : cfg = ⟨2, 2, 306, 396⟩ ∨ cfg = ⟨1, 2, 612, 396⟩ ∨ cfg = ⟨1, 1, 612, 792⟩ := by
    unfold LAYOUTS at hcfg
    split_ifs at hcfg <;> simp_all
  rcases hcases with rfl | rfl | rfl
  · obtain ⟨ops, h1, h2, h3⟩ := generate_pdf_spec routine layout _ q output_path hcfg hr
      (show q ≤ ((q + 2 * 2 - 1) / (2 * 2)) * (2 * 2) by omega)
    refine ⟨ops, h1, h2, ?_, ?_⟩
    · rw [h3]
      show (q + 2 * 2 - 1) / (2 * 2) - 1 + 1 = (q + 2 * 2 - 1) / (2 * 2)
      omega
    · exact (nat_ceil_div_eq q (2 * 2) ((q + 2 * 2 - 1) / (2 * 2)) (by norm_num)
        (by omega) (by omega) (by omega)).symm
  · obtain ⟨ops, h1, h2, h3⟩ := generate_pdf_spec routine layout _ q output_path hcfg hr
      (show q ≤ ((q + 1 * 2 - 1) / (1 * 2)) * (2 * 1) by omega)
    refine ⟨ops, h1, h2, ?_, ?_⟩
    · rw [h3]
      show (q + 1 * 2 - 1) / (1 * 2) - 1 + 1 = (q + 1 * 2 - 1) / (1 * 2)
      omega
    · exact (nat_ceil_div_eq q (1 * 2) ((q + 1 * 2 - 1) / (1 * 2)) (by norm_num)
        (by omega) (by omega) (by omega)).symm
  · obtain ⟨ops, h1, h2, h3⟩ := generate_pdf_spec routine layout _ q output_path hcfg hr
      (show q ≤ ((q + 1 * 1 - 1) / (1 * 1)) * (1 * 1) by omega)
    refine ⟨ops, h1, h2, ?_, ?_⟩
    · rw [h3]
      show (q + 1 * 1 - 1) / (1 * 1) - 1 + 1 = (q + 1 * 1 - 1) / (1 * 1)
      omega
    · exact (nat_ceil_div_eq q (1 * 1) ((q + 1 * 1 - 1) / (1 * 1)) (by norm_num)
        (by omega) (by omega) (by omega)).symm

/-- The end-to-end scenario routine: two items, version 2. -/
def c2Routine : Routine :=
  ⟨"Workout",
   [⟨some "checkbox", some "Pushups", some 0, none, none⟩,
    ⟨some "number", some "Weight", some 1, some "kg", none⟩], some 2⟩

/-- Witness for C2: quantity 5 on the quarter layout gives 2 pages, 5
rendered cards, and summary ⟨quarter, 4, 2, 5⟩. -/
theorem c2_generate_pdf_counts_witness :
    LAYOUTS "quarter" = some ⟨2, 2, 306, 396⟩ ∧ 0 < 5 ∧ routineOk c2Routine = true ∧
    (∃ ops : List Op,
      generate_pdf c2Routine "quarter" 5 (some "cards.pdf")
        = some (ops, none,
            some (PdfOutput.summary ⟨"quarter", 2 * 2, (5 + 2 * 2 - 1) / (2 * 2), 5⟩)) ∧
      ops.countP isDrawRightStringOp = 5 ∧
      ops.countP isShowPageOp + 1 = (5 + 2 * 2 - 1) / (2 * 2) ∧
      (5 + 2 * 2 - 1) / (2 * 2) = ⌈(5 : ℚ) / ((2 * 2 : Nat) : ℚ)⌉₊) :=
  ⟨by simp [LAYOUTS], by decide, by decide,
   c2_generate_pdf_counts c2Routine "quarter" ⟨2, 2, 306, 396⟩ 5 (some "cards.pdf")
     (by simp [LAYOUTS]) (by decide) (by decide)⟩

theorem lineSegments_append (l1 l2 : List Op) :
    lineSegments (l1 ++ l2) = lineSegments l1 ++ lineSegments l2 := by
  simp [lineSegments, List.filterMap_append]

theorem lineSegments_vlines (wq : ℚ) (l : List Nat) :
    lineSegments (l.map (fun col : Nat =>
        Op.line ((col : ℚ) * wq) 0 ((col : ℚ) * wq) PAGE_HEIGHT))
      = l.map (fun col : Nat => ((col : ℚ) * wq, 0, (col : ℚ) * wq, PAGE_HEIGHT)) := by
  induction l with
  | nil => rfl
  | cons a l ih =>
    simp only [List.map_cons, lineSegments, List.filterMap_cons] at ih ⊢
    simpa using ih

theorem lineSegments_hlines (hgt : ℚ) (l : List Nat) :
    lineSegments (l.map (fun row : Nat =>
        Op.line 0 (PAGE_HEIGHT - (row : ℚ) * hgt) PAGE_WIDTH (PAGE_HEIGHT - (row : ℚ) * hgt)))
      = l.map (fun row : Nat =>
          (0, PAGE_HEIGHT - (row : ℚ) * hgt, PAGE_WIDTH, PAGE_HEIGHT - (row : ℚ) * hgt)) := by
  induction l with
  | nil => rfl
  | cons a l ih =>
    simp only [List.map_cons, lineSegments, List.filterMap_cons] at ih ⊢
    simpa using ih

/-- C6.  For every valid layout the cut-guide pass draws exactly cols - 1
vertical dashed lines, one at each internal column boundary x = col *
cardWidth and spanning the full page height, then exactly rows - 1
horizontal dashed lines, one at each internal row boundary y =
PAGE_HEIGHT - row * cardHeight and spanning the full page width; the
lines sit between the dash-on and dash-off operations, and on every page
the guides are emitted before any card content. -/
theorem c6_cut_guides (layout : String) (cfg : LayoutConfig)
    (hcfg : LAYOUTS layout = some cfg)
    (routine : Routine) (q idx page : Nat) (pages : List Nat) :
    lineSegments (draw_cut_guides cfg)
      = (List.range' 1 (cfg.cols - 1)).map (fun col : Nat =>
          ((col : ℚ) * cfg.width, 0, (col : ℚ) * cfg.width, PAGE_HEIGHT))
        ++ (List.range' 1 (cfg.rows - 1)).map (fun row : Nat =>
          (0, PAGE_HEIGHT - (row : ℚ) * cfg.height, PAGE_WIDTH,
           PAGE_HEIGHT - (row : ℚ) * cfg.height)) ∧
    (lineSegments (draw_cut_guides cfg)).length = (cfg.cols - 1) + (cfg.rows - 1) ∧
    (∃ mid, draw_cut_guides cfg
        = [Op.setStrokeColor GRAY, Op.setLineWidth (1/2), Op.setDash 6 3]
          ++ mid ++ [Op.setDashReset] ∧
        lineSegments mid = lineSegments (draw_cut_guides cfg)) ∧
    (∃ rest, (pdfPageLoop cfg routine q (page :: pages) idx).1
        = (if 0 < page then [Op.showPage] else []) ++ draw_cut_guides cfg ++ rest) := by
  have hseg : lineSegments (draw_cut_guides cfg)
      = (List.range' 1 (cfg.cols - 1)).map (fun col : Nat =>
          ((col : ℚ) * cfg.width, 0, (col : ℚ) * cfg.width, PAGE_HEIGHT))
        ++ (List.range' 1 (cfg.rows - 1)).map (fun row : Nat =>
          (0, PAGE_HEIGHT - (row : ℚ) * cfg.height, PAGE_WIDTH,
           PAGE_HEIGHT - (row : ℚ) * cfg.height)) := by
    show lineSegments ([Op.setStrokeColor GRAY, Op.setLineWidth (1/2), Op.setDash 6 3]
      ++ (List.range' 1 (cfg.cols - 1)).map (fun col : Nat =>
           Op.line ((col : ℚ) * cfg.width) 0 ((col : ℚ) * cfg.width) PAGE_HEIGHT)
      ++ (List.range' 1 (cfg.rows - 1)).map (fun row : Nat =>
           Op.line 0 (PAGE_HEIGHT - (row : ℚ) * cfg.height)
             PAGE_WIDTH (PAGE_HEIGHT - (row : ℚ) * cfg.height))
      ++ [Op.setDashReset]) = _
    rw [lineSegments_append, lineSegments_append, lineSegments_append,
        lineSegments_vlines, lineSegments_hlines]
    simp [lineSegments]
  refine ⟨hseg, ?_, ?_, ?_⟩
  · rw [hseg]
    simp [List.length_append, List.length_map, List.length_range']
  · refine ⟨(List.range' 1 (cfg.cols - 1)).map (fun col : Nat =>
        Op.line ((col : ℚ) * cfg.width) 0 ((col : ℚ) * cfg.width) PAGE_HEIGHT)
      ++ (List.range' 1 (cfg.rows - 1)).map (fun row : Nat =>
        Op.line 0 (PAGE_HEIGHT - (row : ℚ) * cfg.height) PAGE_WIDTH
          (PAGE_HEIGHT - (row : ℚ) * cfg.height)), ?_, ?_⟩
    · simp [draw_cut_guides]
    · rw [hseg, lineSegments_append, lineSegments_vlines, lineSegments_hlines]
  · rcases hrow : cardRowLoop cfg routine q (List.range cfg.rows) idx with ⟨ops, err, idx2⟩
    cases err with
    | some e =>
      exact ⟨ops, by simp [pdfPageLoop, hrow, List.append_assoc]⟩
    | none =>
      exact ⟨ops ++ (pdfPageLoop cfg routine q pages idx2).1,
        by simp [pdfPageLoop, hrow, List.append_assoc]⟩

/-- Witness for C6 on the quarter layout: one internal column boundary at
x = 306 and one internal row boundary at y = 396, drawn before the cards
of the first page. -/
theorem c6_cut_guides_witness :
    LAYOUTS "quarter" = some ⟨2, 2, 306, 396⟩ ∧
    (lineSegments (draw_cut_guides ⟨2, 2, 306, 396⟩)
      = (List.range' 1 (2 - 1)).map (fun col : Nat =>
            ((col : ℚ) * 306, 0, (col : ℚ) * 306, PAGE_HEIGHT))
        ++ (List.range' 1 (2 - 1)).map (fun row : Nat =>
            (0, PAGE_HEIGHT - (row : ℚ) * 396, PAGE_WIDTH, PAGE_HEIGHT - (row : ℚ) * 396)) ∧
    (lineSegments (draw_cut_guides ⟨2, 2, 306, 396⟩)).length = (2 - 1) + (2 - 1) ∧
    (∃ mid, draw_cut_guides ⟨2, 2, 306, 396⟩
        = [Op.setStrokeColor GRAY, Op.setLineWidth (1/2), Op.setDash 6 3]
          ++ mid ++ [Op.setDashReset] ∧
        lineSegments mid = lineSegments (draw_cut_guides ⟨2, 2, 306, 396⟩)) ∧
    (∃ rest, (pdfPageLoop ⟨2, 2, 306, 396⟩ c2Routine 1 ([0] : List Nat) 0).1
        = (if 0 < 0 then [Op.showPage] else []) ++ draw_cut_guides ⟨2, 2, 306, 396⟩ ++ rest)) :=
  ⟨by simp [LAYOUTS],
   c6_cut_guides "quarter" ⟨2, 2, 306, 396⟩ (by simp [LAYOUTS]) c2Routine 1 0 0 []⟩

/-- C9.  The operation stream generate_pdf emits does not depend on
whether an output path is supplied: bytes mode and file+summary mode
issue identical drawing command sequences (and fail identically on an
unknown layout). -/
theorem c9_output_modes_equivalent (routine : Routine) (layout : String) (q : Nat)
    (p : String) :
    (generate_pdf routine layout q none).map (fun r => r.1)
      = (generate_pdf routine layout q (some p)).map (fun r => r.1) := by
  cases hc : LAYOUTS layout with
  | none => simp [generate_pdf, hc]
  | some cfg =>
    simp only [generate_pdf, hc]
    rcases (pdfPageLoop cfg routine q
        (List.range ((q + cfg.cols * cfg.rows - 1) / (cfg.cols * cfg.rows))) 0).2.1 with
      _ | e <;> simp

/-- A card whose first sorted item lacks the type key raises KeyError
after the alignment markers and the header have already been drawn. -/
theorem cardRenderer_draw_missing_type (r : CardRenderer) (bad : Item) (rest : List Item)
    (hsort : sortItems r.routine.items = bad :: rest) (hb : bad.type = none)
    (hcy : ¬ (r.y + r.height - MARGIN - 14 - 10 - 15 < r.y + MARGIN + 20)) :
    r.draw = (r.draw_alignment_markers ++ (r.draw_header (r.y + r.height - MARGIN)).1,
              some PyErr.keyError) := by
  have hitems : r.draw_items (r.y + r.height - MARGIN - 14 - 10 - 15)
      = ([], r.y + r.height - MARGIN - 14 - 10 - 15, some PyErr.keyError) := by
    have he : r.draw_items (r.y + r.height - MARGIN - 14 - 10 - 15)
        = drawItemsGo (r.y + MARGIN + 20) (r.x + MARGIN + MARKER_RADIUS * 2)
            (r.width - (2 * MARGIN) - (MARKER_RADIUS * 4)) (sortItems r.routine.items)
            (r.y + r.height - MARGIN - 14 - 10 - 15) := rfl
    rw [he, hsort]
    simp [drawItemsGo, hcy, drawItemDispatch, hb]
  unfold CardRenderer.draw
  simp only [draw_header_snd, hitems, List.append_nil]

/-- Every layout in the LAYOUTS table has at least one column and one
row, and a card height of at least 95 points. -/
theorem LAYOUTS_props (s : String) (cfg : LayoutConfig) (h : LAYOUTS s = some cfg) :
    0 < cfg.cols ∧ 0 < cfg.rows ∧ (95 : ℚ) ≤ cfg.height := by
  have hcases : cfg = ⟨2, 2, 306, 396⟩ ∨ cfg = ⟨1, 2, 612, 396⟩ ∨ cfg = ⟨1, 1, 612, 792⟩ := by
    unfold LAYOUTS at h
    split_ifs at h <;> simp_all
  rcases hcases with rfl | rfl | rfl <;>
    refine ⟨by norm_num, by norm_num, by norm_num⟩

/-- When the first item in sorted order lacks the type key, generation
raises KeyError with a nonempty operation stream already emitted (the cut
guides, the corner markers and the header of the first card) and returns
nothing. -/
theorem generate_pdf_first_card_error (routine : Routine) (layout : String)
    (cfg : LayoutConfig) (q : Nat) (out : Option String) (bad : Item) (rest : List Item)
    (hcfg : LAYOUTS layout = some cfg) (hq : 0 < q)
    (hsort : sortItems routine.items = bad :: rest) (hb : bad.type = none) :
    ∃ ops, generate_pdf routine layout q out = some (ops, some PyErr.keyError, none) ∧
      ops ≠ [] := by
  obtain ⟨hcols, hrows, hh⟩ := LAYOUTS_props layout cfg hcfg
  have hcarderr : ∀ x y : ℚ,
      CardRenderer.draw ⟨x, y, cfg.width, cfg.height, routine, routine.version.getD 1⟩
        = (CardRenderer.draw_alignment_markers
             ⟨x, y, cfg.width, cfg.height, routine, routine.version.getD 1⟩
           ++ (CardRenderer.draw_header
                ⟨x, y, cfg.width, cfg.height, routine, routine.version.getD 1⟩
                (y + cfg.height - MARGIN)).1,
           some PyErr.keyError) := by
    intro x y
    apply cardRenderer_draw_missing_type _ bad rest hsort hb
    show ¬ (y + cfg.height - MARGIN - 14 - 10 - 15 < y + MARGIN + 20)
    simp only [MARGIN, not_lt]
    linarith
  obtain ⟨cols2, hcols2⟩ : ∃ k, cfg.cols = k + 1 := ⟨cfg.cols - 1, by omega⟩
  obtain ⟨rows2, hrows2⟩ : ∃ k, cfg.rows = k + 1 := ⟨cfg.rows - 1, by omega⟩
  have hcell : ∀ row : Nat, cardCellLoop cfg routine q row (List.range cfg.cols) 0
      = ((CardRenderer.draw ⟨((0 : Nat) : ℚ) * cfg.width,
            PAGE_HEIGHT - (((row : Nat) : ℚ) + 1) * cfg.height,
            cfg.width, cfg.height, routine, routine.version.getD 1⟩).1,
         some PyErr.keyError, 0) := by
    intro row
    rw [hcols2, List.range_succ_eq_map]
    simp only [cardCellLoop]
    rw [if_neg (by omega)]
    rw [hcarderr]
  have hrow : cardRowLoop cfg routine q (List.range cfg.rows) 0
      = ((CardRenderer.draw ⟨((0 : Nat) : ℚ) * cfg.width,
            PAGE_HEIGHT - (((0 : Nat) : ℚ) + 1) * cfg.height,
            cfg.width, cfg.height, routine, routine.version.getD 1⟩).1,
         some PyErr.keyError, 0) := by
    rw [hrows2, List.range_succ_eq_map]
    simp only [cardRowLoop]
    rw [hcell 0]
  have htp : ∃ k, (q + cfg.cols * cfg.rows - 1) / (cfg.cols * cfg.rows) = k + 1 := by
    refine ⟨(q + cfg.cols * cfg.rows - 1) / (cfg.cols * cfg.rows) - 1, ?_⟩
    have h1 : 0 < cfg.cols * cfg.rows := Nat.mul_pos hcols hrows
    have h2 : cfg.cols * cfg.rows ≤ q + cfg.cols * cfg.rows - 1 := by omega
    have h3 : 0 < (q + cfg.cols * cfg.rows - 1) / (cfg.cols * cfg.rows) :=
      Nat.div_pos h2 h1
    omega
  obtain ⟨tp2, htp2⟩ := htp
  refine ⟨draw_cut_guides cfg
      ++ (CardRenderer.draw ⟨((0 : Nat) : ℚ) * cfg.width,
            PAGE_HEIGHT - (((0 : Nat) : ℚ) + 1) * cfg.height,
            cfg.width, cfg.height, routine, routine.version.getD 1⟩).1, ?_, ?_⟩
  · simp only [generate_pdf, hcfg]
    rw [htp2, List.range_succ_eq_map]
    simp only [pdfPageLoop]
    rw [hrow]
    simp
  · simp [draw_cut_guides]

/-- C7 (amended).  A missing routine name or missing items list raises
KeyError in main before any drawing call is issued (empty operation
stream).  A missing item type, however, raises KeyError only while the
first card that reaches the item is being rendered: the error surfaces as
a hard failure with no return value, but the cut guides, the corner
markers and the card header have already been emitted — a partial card is
drawn. -/
theorem c7_validation_fail_fast (data : InputData) (layout_arg : String) (out : String) :
    (data.name = none → mainRun data layout_arg out = ([], some PyErr.keyError, none)) ∧
    (∀ nm, data.name = some nm → data.items = none →
        mainRun data layout_arg out = ([], some PyErr.keyError, none)) ∧
    (∀ nm items bad rest cfg,
        data.name = some nm → data.items = some items →
        LAYOUTS (if layout_arg = "auto" then suggest_layout (items.length : Int)
                 else layout_arg) = some cfg →
        0 < data.quantity.getD 1 →
        sortItems items = bad :: rest → bad.type = none →
        (mainRun data layout_arg out).2.1 = some PyErr.keyError ∧
        (mainRun data layout_arg out).1 ≠ [] ∧
        (mainRun data layout_arg out).2.2 = none) := by
  refine ⟨?_, ?_, ?_⟩
  · intro h
    simp [mainRun, h]
  · intro nm h1 h2
    simp [mainRun, h1, h2]
  · intro nm items bad rest cfg h1 h2 hL hq hsort hb
    obtain ⟨ops, hgen, hne⟩ := generate_pdf_first_card_error
      ⟨nm, items, some (data.version.getD 1)⟩
      (if layout_arg = "auto" then suggest_layout (items.length : Int) else layout_arg)
      cfg (data.quantity.getD 1) (some out) bad rest hL hq hsort hb
    refine ⟨?_, ?_, ?_⟩ <;> simp [mainRun, h1, h2, hgen, hne]

/-- Input whose single item lacks the type key. -/
def c7Data : InputData :=
  ⟨some "X", some [⟨none, some "A", none, none, none⟩], none, none⟩

/-- Counterexample to C7 as stated: with a routine whose item lacks the
type key, generation does fail with a hard error, but only after drawing
calls have been issued — the emitted operation stream is nonempty (guides,
markers, header), so a partial card is rendered, contradicting fails
fast before any drawing call. -/
theorem c7_counterexample :
    (mainRun c7Data "quarter" "cards.pdf").2.1 = some PyErr.keyError ∧
    (mainRun c7Data "quarter" "cards.pdf").1 ≠ [] := by
  obtain ⟨ops, hgen, hne⟩ := generate_pdf_first_card_error
    ⟨"X", [⟨none, some "A", none, none, none⟩], some 1⟩ "quarter" ⟨2, 2, 306, 396⟩
    1 (some "cards.pdf") ⟨none, some "A", none, none, none⟩ []
    (by simp [LAYOUTS]) (by decide) rfl rfl
  constructor <;> simp +decide [mainRun, c7Data, hgen, hne]

/-- Items for the C7 witness: the type-less item sorts first. -/
def c7wBad : Item := ⟨none, some "A", some 0, none, none⟩

def c7wOk : Item := ⟨some "checkbox", some "B", some 1, none, none⟩

def c7wData : InputData := ⟨some "X", some [c7wBad, c7wOk], none, none⟩

/-- Witness for the amended C7 on the missing-item-type branch. -/
theorem c7_validation_fail_fast_witness :
    c7wData.name = some "X" ∧ c7wData.items = some [c7wBad, c7wOk] ∧
    LAYOUTS (if "quarter" = "auto"
             then suggest_layout (([c7wBad, c7wOk] : List Item).length : Int)
             else "quarter") = some ⟨2, 2, 306, 396⟩ ∧
    0 < c7wData.quantity.getD 1 ∧
    sortItems [c7wBad, c7wOk] = c7wBad :: [c7wOk] ∧ c7wBad.type = none ∧
    ((mainRun c7wData "quarter" "cards.pdf").2.1 = some PyErr.keyError ∧
     (mainRun c7wData "quarter" "cards.pdf").1 ≠ [] ∧
     (mainRun c7wData "quarter" "cards.pdf").2.2 = none) :=
  ⟨rfl, rfl, by simp +decide [LAYOUTS], by decide, by decide, rfl,
   (c7_validation_fail_fast c7wData "quarter" "cards.pdf").2.2 "X" [c7wBad, c7wOk]
     c7wBad [c7wOk] ⟨2, 2, 306, 396⟩ rfl rfl (by simp +decide [LAYOUTS]) (by decide)
     (by decide) rfl⟩
